import Mathlib

/-!
# Verification of the netbox-agent reconciliation engine

Shallow embedding of the reconciliation engine of `netbox_agent`
(`module_inventory.py`, `network.py`) in Lean 4, together with proofs and
refutations of the specification's claims.

Modelling conventions:

* The remote NetBox inventory is modelled as explicit state records
  (`InvState` for bays/modules, `NetState` for interfaces/MACs/IPs/VLANs).
  Every remote create/update/delete call performed by the engine is recorded
  as an operation in a trace (`InvOp`, `NetOp`); `logging.error` calls that
  the spec treats as observable errors are recorded in an `errs` list.
* Python exceptions that the engine can raise (`list.remove` on an absent
  element raising `ValueError`, `next()` on an empty generator raising
  `StopIteration`, a second `.delete()` of an already deleted record raising
  a pynetbox request error, `IndexError` on a short `split` result) are
  modelled by a `crashed` flag: once set, the remainder of the run is
  skipped and the trace collected so far is kept.
* Machine identity of pynetbox records (`==` on records, `list.remove`)
  compares primary keys, hence comparisons are by `.id`.
* Remote-side NetBox semantics assumed for state updates: deleting an
  interface cascades to its MAC-address objects and its assigned IP
  addresses (Django `GenericRelation` cascade) and nulls `lag` / `bridge`
  references of other interfaces pointing to it (`on_delete=SET_NULL`).
* Configuration is fixed to the mainline configuration: inventory and
  network updates enabled, `update_expansion=False`, LLDP disabled,
  `network.nic_id = "name"`, NetBox version >= 4.2, physical server
  (`ServerNetwork`).
-/

namespace NetboxAgent

/-! ## Basic helpers -/

/-- Python dict built by a comprehension `{key(m): m for m in l}`: on key
collision the later entry wins.  Lookup of `k` in that dict. -/
def dictGet {α : Type} (l : List α) (key : α → String) (k : String) : Option α :=
  l.foldl (fun acc m => if key m == k then some m else acc) none

/-- Python `str.split(sep)` for a one-character separator, on character
lists.  `split` always returns at least one (possibly empty) part. -/
def splitOnCharList (c : Char) : List Char → List (List Char)
  | [] => [[]]
  | x :: xs =>
    let r := splitOnCharList c xs
    if x = c then [] :: r
    else
      match r with
      | [] => [[x]]
      | h :: t => (x :: h) :: t

/-- `str.split(sep)` on strings. -/
def splitOnCharStr (c : Char) (s : String) : List String :=
  (splitOnCharList c s.data).map fun l => String.mk l

/-- `str.startswith` on the character lists of the strings (the byte-based
core implementation does not reduce in the kernel). -/
def strStartsWith (s p : String) : Bool :=
  p.data.isPrefixOf s.data

/-- `str.lower` character-wise. -/
def strToLower (s : String) : String :=
  String.mk (s.data.map Char.toLower)

/-- `str.strip()`: remove leading and trailing whitespace. -/
def strTrim (s : String) : String :=
  String.mk (((s.data.dropWhile (·.isWhitespace)).reverse.dropWhile
    (·.isWhitespace)).reverse)

/-- Python slicing `s[n:]`. -/
def strDrop (s : String) (n : Nat) : String :=
  String.mk (s.data.drop n)

/-- `str.replace(old, new)`: non-overlapping left-to-right replacement,
on character lists. -/
def replaceList (old new : List Char) : List Char → List Char
  | [] => []
  | x :: xs =>
    if old ≠ [] && old.isPrefixOf (x :: xs) then
      new ++ replaceList old new (xs.drop (old.length - 1))
    else x :: replaceList old new xs
termination_by l => l.length
decreasing_by
· simp only [List.length_drop, List.length_cons]
  omega
· simp only [List.length_cons]
  omega

/-- `str.replace(old, new)` on strings. -/
def strReplace (s old new : String) : String :=
  String.mk (replaceList old.data new.data s.data)

/-- `int(s)` for a plain digit string; `none` models `ValueError`. -/
def strToNat (s : String) : Option Nat :=
  if s.data ≠ [] && s.data.all (·.isDigit) then
    some (s.data.foldl (fun n c => n * 10 + (c.toNat - '0'.toNat)) 0)
  else none

/-! ## The CPU part-number pattern

`do_netbox_cpus` extracts a normalized part number from the product string
with `re.search(r"([A-Za-z][0-9]-)?\d{4}\s*[A-Za-z]?[0-9]?", name)` and then
removes the spaces of the match.  The regex is implemented directly: an
optional letter-digit-dash group, four digits, greedy whitespace, an
optional letter, an optional digit; `re.search` returns the leftmost match,
trying the optional group first at each position. -/

/-- Match the suffix of the pattern after the optional group at the head of
`cs`: `\d{4}\s*[A-Za-z]?[0-9]?`.  Returns the matched characters. -/
def cpuPatternCore (cs : List Char) : Option (List Char) :=
  match cs with
  | d1 :: d2 :: d3 :: d4 :: rest =>
    if d1.isDigit && d2.isDigit && d3.isDigit && d4.isDigit then
      let sp := rest.takeWhile (·.isWhitespace)
      let rest2 := rest.dropWhile (·.isWhitespace)
      let (al, rest3) :=
        match rest2 with
        | a :: r => if a.isAlpha then ([a], r) else ([], rest2)
        | [] => ([], rest2)
      let dg :=
        match rest3 with
        | b :: _ => if b.isDigit then [b] else []
        | [] => []
      some ([d1, d2, d3, d4] ++ sp ++ al ++ dg)
    else none
  | _ => none

/-- Match the full pattern at the head of `cs`, preferring the optional
leading group as a backtracking regex engine does. -/
def cpuPatternAt (cs : List Char) : Option (List Char) :=
  match cs with
  | a :: d :: dash :: rest =>
    if a.isAlpha && d.isDigit && dash = '-' then
      match cpuPatternCore rest with
      | some m => some ([a, d, dash] ++ m)
      | none => cpuPatternCore cs
    else cpuPatternCore cs
  | _ => cpuPatternCore cs

/-- `re.search`: try every start position left to right. -/
def cpuPatternSearch : List Char → Option (List Char)
  | [] => none
  | x :: xs =>
    match cpuPatternAt (x :: xs) with
    | some m => some m
    | none => cpuPatternSearch xs

/-- `match.group(0).replace(" ", "") if match else ""`. -/
def extractPartNumber (product : String) : String :=
  match cpuPatternSearch product.data with
  | some m => String.mk (m.filter (· ≠ ' '))
  | none => ""

/-! ## Remote inventory data model (module bays / modules) -/

structure ModuleBay where
  id : Nat
  name : String
  deriving DecidableEq, Repr

structure ModuleTypeR where
  id : Nat
  partNumber : String
  model : String
  profile : String
  deriving DecidableEq, Repr

structure ModuleR where
  id : Nat
  bay : ModuleBay
  typ : ModuleTypeR
  serial : String
  deriving DecidableEq, Repr

structure InvState where
  bays : List ModuleBay
  modules : List ModuleR
  nextId : Nat
  deriving DecidableEq, Repr

/-- Remote calls of the bay/module reconciler. -/
inductive InvOp where
  | createBay (name : String)
  | createModule (bayId : Nat) (typeId : Nat) (serial : String)
  | deleteModule (id : Nat)
  deriving DecidableEq, Repr

/-- Logged reconciliation errors (`logging.error` occurrences). -/
inductive InvErr where
  | cpuCapacity
  | typeMissing
  | missingSlot
  | missingPdId
  | noFreeBay
  deriving DecidableEq, Repr

structure InvRes where
  st : InvState
  trace : List InvOp
  errs : List InvErr
  crashed : Bool
  deriving DecidableEq, Repr

/-- `get_netbox_module_bays(prefix)`: device bays filtered by name prefix. -/
def get_netbox_module_bays (st : InvState) (pre : String) : List ModuleBay :=
  st.bays.filter fun b => strStartsWith b.name pre

/-- `get_netbox_modules(profile)` with a nonempty profile: device modules
whose module type has that profile. -/
def get_netbox_modules (st : InvState) (profile : String) : List ModuleR :=
  st.modules.filter fun m => m.typ.profile == profile

/-- `get_netbox_module_type(part_number, model)`: filter the module-type
catalog and take the first match; empty arguments give no filter call. -/
def get_netbox_module_type (catalog : List ModuleTypeR) (part model : String) :
    Option ModuleTypeR :=
  if part ≠ "" && model ≠ "" then
    catalog.find? fun t => t.partNumber == part && t.model == model
  else if part ≠ "" then
    catalog.find? fun t => t.partNumber == part
  else if model ≠ "" then
    catalog.find? fun t => t.model == model
  else none

/-- Append a freshly created module (the `nb.dcim.modules.create` call). -/
def addModule (st : InvState) (bay : ModuleBay) (t : ModuleTypeR) (serial : String) :
    InvState :=
  { st with
    modules := st.modules ++ [{ id := st.nextId, bay := bay, typ := t, serial := serial }]
    nextId := st.nextId + 1 }

/-- Append a freshly created module bay. -/
def addBay (st : InvState) (name : String) : InvState × ModuleBay :=
  let b : ModuleBay := { id := st.nextId, name := name }
  ({ st with bays := st.bays ++ [b], nextId := st.nextId + 1 }, b)

/-- Delete a module record by id; a second delete of an already removed
record raises in pynetbox, modelled by the crash flag (`true` = ok). -/
def removeModule (st : InvState) (id : Nat) : InvState × Bool :=
  if st.modules.any (fun m => m.id == id) then
    ({ st with modules := st.modules.filter fun m => !(m.id == id) }, true)
  else (st, false)

/-! ## `do_netbox_cpus` -/

structure CpuFact where
  product : String
  deriving DecidableEq, Repr

structure CpuAcc where
  bays : List ModuleBay
  mods : List ModuleR
  st : InvState
  trace : List InvOp
  errs : List InvErr
  crashed : Bool
  deriving Repr

/-- One iteration of the `for cpu in cpus` loop of `do_netbox_cpus`. -/
def cpuStep (catalog : List ModuleTypeR) (acc : CpuAcc) (cpu : CpuFact) : CpuAcc :=
  if acc.crashed then acc else
  let part := extractPartNumber cpu.product
  match acc.mods.find? (fun m => m.typ.partNumber == part) with
  | some m =>
    -- existing CPU: `cpu_bays.remove(existing_cpu.module_bay)` raises
    -- ValueError when the bay is not in the list; `cpu_modules.remove`.
    let mods := acc.mods.eraseP fun x => x.id == m.id
    if acc.bays.any (fun b => b.id == m.bay.id) then
      { acc with mods := mods, bays := acc.bays.eraseP fun b => b.id == m.bay.id }
    else
      { acc with mods := mods, crashed := true }
  | none =>
    -- `module_bay = cpu_bays.pop(0) if cpu_bays else None`
    match acc.bays with
    | [] => acc
    | bay :: rest =>
      match get_netbox_module_type catalog part "" with
      | none => { acc with bays := rest, errs := acc.errs ++ [InvErr.typeMissing] }
      | some t =>
        { acc with
          bays := rest
          st := addModule acc.st bay t ""
          trace := acc.trace ++ [InvOp.createModule bay.id t.id ""] }

/-- `do_netbox_cpus`. -/
def do_netbox_cpus (cpus : List CpuFact) (catalog : List ModuleTypeR)
    (st : InvState) : InvRes :=
  let cpu_bays := get_netbox_module_bays st "CPU"
  let _cpu_modules := get_netbox_modules st "CPU"
  if cpu_bays.length == 0 || (cpu_bays.length > 0 && cpus.length > cpu_bays.length) then
    { st := st, trace := [], errs := [InvErr.cpuCapacity], crashed := false }
  else
    let acc := cpus.foldl (cpuStep catalog)
      { bays := cpu_bays, mods := _cpu_modules, st := st, trace := [], errs := [],
        crashed := false }
    { st := acc.st, trace := acc.trace, errs := acc.errs, crashed := acc.crashed }

/-! ## `do_netbox_raid_cards` -/

structure RaidFact where
  serial : String
  product : String
  /-- `raid_card.data.get("Slot", "")`; `none` models a missing or empty
  slot string, `some s` a numeric slot string (the code applies `int`). -/
  slot : Option Nat
  /-- `raid_card.data.get("External", False)`. -/
  external : Bool
  deriving DecidableEq, Repr

/-- The inline bay-name computation of `do_netbox_raid_cards`:
`"RAID.Emb.{int(slot)+1}.1"` when not external, `"RAID.Slot.{slot}.1"`
when external, and an error (`none`) when the slot is missing. -/
def raidCardBayName (slot : Option Nat) (external : Bool) : Option String :=
  match slot with
  | some s =>
    if !external then some ("RAID.Emb." ++ toString (s + 1) ++ ".1")
    else some ("RAID.Slot." ++ toString s ++ ".1")
  | none => none

structure BayLoopAcc where
  bayList : List ModuleBay
  st : InvState
  trace : List InvOp
  errs : List InvErr
  crashed : Bool
  deriving Repr

/-- One iteration of the `for raid_card in raid_cards` loop.  `moduleMap` is
the bay-name → module dict built once before the loop (never updated), while
the bay dict (`bayList` here) is extended when a bay is created. -/
def raidStep (catalog : List ModuleTypeR) (moduleMap : String → Option ModuleR)
    (acc : BayLoopAcc) (card : RaidFact) : BayLoopAcc :=
  if acc.crashed then acc else
  match raidCardBayName card.slot card.external with
  | none => { acc with errs := acc.errs ++ [InvErr.missingSlot] }
  | some bay_name =>
    let bay0 := dictGet acc.bayList (fun b => b.name) bay_name
    let existing0 := moduleMap bay_name
    -- if the module bay does not exist yet, create it
    let (bayList, st, trace, bay) :=
      match bay0 with
      | some b => (acc.bayList, acc.st, acc.trace, b)
      | none =>
        let (st, b) := addBay acc.st bay_name
        (acc.bayList ++ [b], st, acc.trace ++ [InvOp.createBay bay_name], b)
    -- if a module exists in this bay but the serial does not match, delete it
    let (st, trace, existing, ok) :=
      match existing0 with
      | some m =>
        if m.serial ≠ card.serial then
          let (st, ok) := removeModule st m.id
          (st, trace ++ [InvOp.deleteModule m.id], none, ok)
        else (st, trace, some m, true)
      | none => (st, trace, none, true)
    if !ok then { acc with bayList := bayList, st := st, trace := trace, crashed := true }
    else
      match existing with
      | some _ => { acc with bayList := bayList, st := st, trace := trace }
      | none =>
        match get_netbox_module_type catalog "" card.product with
        | none =>
          { acc with
            bayList := bayList
            st := st
            trace := trace
            errs := acc.errs ++ [InvErr.typeMissing] }
        | some t =>
          { acc with
            bayList := bayList
            st := addModule st bay t card.serial
            trace := trace ++ [InvOp.createModule bay.id t.id card.serial] }

/-- `do_netbox_raid_cards`. -/
def do_netbox_raid_cards (raidCards : List RaidFact) (catalog : List ModuleTypeR)
    (st : InvState) : InvRes :=
  let raid_bays := get_netbox_module_bays st "RAID"
  let raid_modules := get_netbox_modules st "RAID Controller"
  let moduleMap := fun n => dictGet raid_modules (fun m => m.bay.name) n
  let acc := raidCards.foldl (raidStep catalog moduleMap)
    { bayList := raid_bays, st := st, trace := [], errs := [], crashed := false }
  { st := acc.st, trace := acc.trace, errs := acc.errs, crashed := acc.crashed }

/-! ## `do_netbox_disks` -/

structure DiskFact where
  /-- the raw `"Model"` entry; the code uses `disk.get("Model", "")[8:]`. -/
  rawModel : String
  /-- `disk.get("custom_fields", {}).get("pd_identifier")`. -/
  pdId : Option String
  deriving DecidableEq, Repr

/-- The inline disk bay-name computation: `pd_id.split(":")`, then
`"Disk Box " + parts[1] + " Bay " + parts[2]`; `none` models the
`IndexError` crash when the identifier has fewer than three parts. -/
def diskBayName (pdId : String) : Option String :=
  match splitOnCharStr ':' pdId with
  | _ :: box :: bay :: _ => some ("Disk Box " ++ box ++ " Bay " ++ bay)
  | _ => none

/-- One iteration of the `for disk in disks` loop. -/
def diskStep (catalog : List ModuleTypeR) (moduleMap : String → Option ModuleR)
    (acc : BayLoopAcc) (disk : DiskFact) : BayLoopAcc :=
  if acc.crashed then acc else
  let model := strDrop disk.rawModel 8
  let pd := (disk.pdId.map strTrim).getD ""
  if pd = "" then { acc with errs := acc.errs ++ [InvErr.missingPdId] }
  else
    match diskBayName pd with
    | none => { acc with crashed := true }  -- IndexError on short split
    | some bay_name =>
      match get_netbox_module_type catalog "" model with
      | none => { acc with errs := acc.errs ++ [InvErr.typeMissing] }
      | some t =>
        let bay0 := dictGet acc.bayList (fun b => b.name) bay_name
        let existing0 := moduleMap bay_name
        match bay0 with
        | none =>
          -- bay missing: create it; note the `elif`: the mismatch deletion
          -- is skipped in this case, and `existing_module` keeps the stale
          -- dict value for the creation guard below.
          let (st, b) := addBay acc.st bay_name
          let trace := acc.trace ++ [InvOp.createBay bay_name]
          match existing0 with
          | some _ => { acc with bayList := acc.bayList ++ [b], st := st, trace := trace }
          | none =>
            { acc with
              bayList := acc.bayList ++ [b]
              st := addModule st b t ""
              trace := trace ++ [InvOp.createModule b.id t.id ""] }
        | some bay =>
          let (st, trace, existing, ok) :=
            match existing0 with
            | some m =>
              if m.typ.model ≠ model then
                let (st, ok) := removeModule acc.st m.id
                (st, acc.trace ++ [InvOp.deleteModule m.id], none, ok)
              else (acc.st, acc.trace, some m, true)
            | none => (acc.st, acc.trace, none, true)
          if !ok then { acc with st := st, trace := trace, crashed := true }
          else
            match existing with
            | some _ => { acc with st := st, trace := trace }
            | none =>
              { acc with
                st := addModule st bay t ""
                trace := trace ++ [InvOp.createModule bay.id t.id ""] }

/-- `do_netbox_disks`. -/
def do_netbox_disks (disks : List DiskFact) (catalog : List ModuleTypeR)
    (st : InvState) : InvRes :=
  let disk_bays := get_netbox_module_bays st "Disk"
  let disk_modules := get_netbox_modules st "Hard disk"
  let moduleMap := fun n => dictGet disk_modules (fun m => m.bay.name) n
  let acc := disks.foldl (diskStep catalog moduleMap)
    { bayList := disk_bays, st := st, trace := [], errs := [], crashed := false }
  { st := acc.st, trace := acc.trace, errs := acc.errs, crashed := acc.crashed }

/-! ## `do_netbox_memories` -/

structure MemoryFact where
  /-- `str(memory.get("slot", ""))`. -/
  slot : String
  /-- `memory.get("product", "")`, used as the part number. -/
  product : String
  deriving DecidableEq, Repr

structure MemAcc where
  st : InvState
  trace : List InvOp
  errs : List InvErr
  crashed : Bool
  deriving Repr

/-- One iteration of the `for memory in memories` loop; both dicts are
built once and never updated. -/
def memoryStep (catalog : List ModuleTypeR) (bayMap : String → Option ModuleBay)
    (moduleMap : String → Option ModuleR) (acc : MemAcc) (mem : MemoryFact) : MemAcc :=
  if acc.crashed then acc else
  let part := mem.product
  let bay := bayMap ("Memory " ++ mem.slot)
  let existing0 := moduleMap ("Memory " ++ mem.slot)
  let (st, trace, existing, ok) :=
    match existing0 with
    | some m =>
      if m.typ.partNumber ≠ part then
        let (st, ok) := removeModule acc.st m.id
        (st, acc.trace ++ [InvOp.deleteModule m.id], none, ok)
      else (acc.st, acc.trace, some m, true)
    | none => (acc.st, acc.trace, none, true)
  if !ok then { acc with st := st, trace := trace, crashed := true }
  else
    match existing, bay with
    | none, some b =>
      match get_netbox_module_type catalog part "" with
      | none => { acc with st := st, trace := trace, errs := acc.errs ++ [InvErr.typeMissing] }
      | some t =>
        { acc with
          st := addModule st b t ""
          trace := trace ++ [InvOp.createModule b.id t.id ""] }
    | _, _ => { acc with st := st, trace := trace }

/-- `do_netbox_memories`. -/
def do_netbox_memories (memories : List MemoryFact) (catalog : List ModuleTypeR)
    (st : InvState) : InvRes :=
  let memory_bays := get_netbox_module_bays st "Memory"
  let memory_modules := get_netbox_modules st "Memory"
  let bayMap := fun n => dictGet memory_bays (fun b => b.name) n
  let moduleMap := fun n => dictGet memory_modules (fun m => m.bay.name) n
  let acc := memories.foldl (memoryStep catalog bayMap moduleMap)
    { st := st, trace := [], errs := [], crashed := false }
  { st := acc.st, trace := acc.trace, errs := acc.errs, crashed := acc.crashed }

/-! ## `do_netbox_nics` (HP hosts) -/

structure NicModFact where
  model : String
  moduleBay : String
  serial : String
  deriving DecidableEq, Repr

/-- One iteration of the `for nic in nics` loop. -/
def nicModStep (catalog : List ModuleTypeR) (moduleMap : String → Option ModuleR)
    (acc : BayLoopAcc) (nic : NicModFact) : BayLoopAcc :=
  if acc.crashed then acc else
  match get_netbox_module_type catalog "" nic.model with
  | none => { acc with errs := acc.errs ++ [InvErr.typeMissing] }
  | some t =>
    let bay_name := nic.moduleBay
    let bay0 := dictGet acc.bayList (fun b => b.name) bay_name
    let existing0 := moduleMap bay_name
    let (bayList, st, trace, bay) :=
      match bay0 with
      | some b => (acc.bayList, acc.st, acc.trace, b)
      | none =>
        let (st, b) := addBay acc.st bay_name
        (acc.bayList ++ [b], st, acc.trace ++ [InvOp.createBay bay_name], b)
    -- `existing_module.module_type != module_type` compares records by id
    let (st, trace, existing, ok) :=
      match existing0 with
      | some m =>
        if m.typ.id ≠ t.id then
          let (st, ok) := removeModule st m.id
          (st, trace ++ [InvOp.deleteModule m.id], none, ok)
        else (st, trace, some m, true)
      | none => (st, trace, none, true)
    if !ok then { acc with bayList := bayList, st := st, trace := trace, crashed := true }
    else
      match existing with
      | some _ => { acc with bayList := bayList, st := st, trace := trace }
      | none =>
        { acc with
          bayList := bayList
          st := addModule st bay t nic.serial
          trace := trace ++ [InvOp.createModule bay.id t.id nic.serial] }

/-- `do_netbox_nics`. -/
def do_netbox_nics (nics : List NicModFact) (catalog : List ModuleTypeR)
    (st : InvState) : InvRes :=
  let nic_bays := get_netbox_module_bays st "NIC"
  let nic_modules := get_netbox_modules st "NIC"
  let moduleMap := fun n => dictGet nic_modules (fun m => m.bay.name) n
  let acc := nics.foldl (nicModStep catalog moduleMap)
    { bayList := nic_bays, st := st, trace := [], errs := [], crashed := false }
  { st := acc.st, trace := acc.trace, errs := acc.errs, crashed := acc.crashed }

/-! ## `do_netbox_psus` -/

structure PsuFact where
  /-- `psu.get("product", "")`. -/
  product : String
  /-- `psu.get("serial", "")`; `""` when the serial is absent. -/
  serial : String
  deriving DecidableEq, Repr

/-- Phase 2 of `do_netbox_psus`: remove from the free-bay pool the bays of
modules whose serial matches a local serial (Python `psu_bays.remove`
guarded by an `in` check). -/
def psuReserveBays (psuModules : List ModuleR) (localSerials : List String)
    (pool : List ModuleBay) : List ModuleBay :=
  psuModules.foldl
    (fun pool m =>
      if localSerials.contains m.serial && pool.any (fun b => b.id == m.bay.id) then
        pool.eraseP fun b => b.id == m.bay.id
      else pool)
    pool

structure PsuAcc where
  pool : List ModuleBay
  st : InvState
  trace : List InvOp
  errs : List InvErr
  deriving Repr

/-- One iteration of the allocation loop (`for psu in psus`) of
`do_netbox_psus`.  The `exists` check ranges over the module list fetched at
the start of the run, which still contains the records deleted in phase 1. -/
def psuStep (catalog : List ModuleTypeR) (psuModules : List ModuleR)
    (acc : PsuAcc) (psu : PsuFact) : PsuAcc :=
  match get_netbox_module_type catalog psu.product "" with
  | none => { acc with errs := acc.errs ++ [InvErr.typeMissing] }
  | some t =>
    if psuModules.any (fun m => m.serial == psu.serial) then acc
    else
      match acc.pool with
      | [] => { acc with errs := acc.errs ++ [InvErr.noFreeBay] }
      | bay :: rest =>
        { acc with
          pool := rest
          st := addModule acc.st bay t psu.serial
          trace := acc.trace ++ [InvOp.createModule bay.id t.id psu.serial] }

/-- `do_netbox_psus`: delete stale modules, reserve matched bays, then
allocate the remaining local PSUs from the free-bay pool. -/
def local_psu_serials (psus : List PsuFact) : List String :=
  (psus.map (·.serial)).filter (· ≠ "")

/-- The modules deleted by phase 1: serial absent from the local set. -/
def stale_psu_modules (psus : List PsuFact) (st : InvState) : List ModuleR :=
  (get_netbox_modules st "Power supply").filter fun m =>
    !(local_psu_serials psus).contains m.serial

def do_netbox_psus (psus : List PsuFact) (catalog : List ModuleTypeR)
    (st : InvState) : InvRes :=
  let psu_bays := get_netbox_module_bays st "PSU"
  let psu_modules := get_netbox_modules st "Power supply"
  let local_serials := local_psu_serials psus
  -- phase 1: delete NetBox PSU modules not present in the local system
  let stale := stale_psu_modules psus st
  let st1 := stale.foldl (fun s m => (removeModule s m.id).1) st
  let tr1 := stale.map fun m => InvOp.deleteModule m.id
  -- phase 2: remove already used bays matching local serials
  let pool := psuReserveBays psu_modules local_serials psu_bays
  -- phase 3: allocate
  let acc := psus.foldl (psuStep catalog psu_modules)
    { pool := pool, st := st1, trace := [], errs := [] }
  { st := acc.st, trace := tr1 ++ acc.trace, errs := acc.errs, crashed := false }

/-! ## `create_or_update` (module inventory entry point) -/

structure InvFacts where
  cpus : List CpuFact
  memories : List MemoryFact
  disks : List DiskFact
  raidCards : List RaidFact
  nics : List NicModFact
  psus : List PsuFact
  deriving Repr

/-- Sequence two category runs; a crash (uncaught Python exception) aborts
the remaining categories. -/
def seqInv (r : InvRes) (f : InvState → InvRes) : InvRes :=
  if r.crashed then r
  else
    let r2 := f r.st
    { st := r2.st, trace := r.trace ++ r2.trace, errs := r.errs ++ r2.errs,
      crashed := r2.crashed }

/-- `ModuleInventory.create_or_update` with `update_expansion=False`:
CPUs, memories, disks, RAID cards, NICs, PSUs, in this order. -/
def create_or_update (f : InvFacts) (catalog : List ModuleTypeR)
    (st : InvState) : InvRes :=
  let r := do_netbox_cpus f.cpus catalog st
  let r := seqInv r (do_netbox_memories f.memories catalog)
  let r := seqInv r (do_netbox_disks f.disks catalog)
  let r := seqInv r (do_netbox_raid_cards f.raidCards catalog)
  let r := seqInv r (do_netbox_nics f.nics catalog)
  seqInv r (do_netbox_psus f.psus catalog)

/-! ## Network data model

Configuration fixed as stated in the header: physical server
(`ServerNetwork`), `nic_id = "name"`, LLDP disabled, NetBox >= 4.2. -/

inductive IfMode where
  | access
  | tagged
  | taggedAll
  deriving DecidableEq, Repr

/-- A VLAN reference held by an interface (`tagged_vlans` / `untagged_vlan`
entries expose the record id and the `vid`). -/
structure VlanRef where
  id : Nat
  vid : Nat
  deriving DecidableEq, Repr

/-- Values of the `interface:type` choice table used by the engine. -/
inductive IfType where
  | virt
  | lagT
  | bridgeT
  | otherT
  | sfpPlus10
  | tenGBaseT
  | sfp28
  | fiveGBaseT
  | twoHalfGBaseT
  | sfp1
  | oneGBaseT
  deriving DecidableEq, Repr

/-- A `lag` reference exposes the parent's record id and name. -/
structure LagRef where
  id : Nat
  name : String
  deriving DecidableEq, Repr

structure NbInterface where
  id : Nat
  name : String
  macAddress : Option String
  mtu : Option Nat
  duplex : Option String
  speed : Option Nat
  typ : Option IfType
  mode : Option IfMode
  taggedVlans : List VlanRef
  untaggedVlan : Option VlanRef
  lagRef : Option LagRef
  bridgeRef : Option Nat
  enabled : Bool
  deriving DecidableEq, Repr

/-- A NetBox >= 4.2 MAC-address object. -/
structure MacR where
  id : Nat
  mac : String
  interfaceId : Nat
  deriving DecidableEq, Repr

inductive IpRole where
  | anycast
  | otherRole
  deriving DecidableEq, Repr

structure IpR where
  id : Nat
  address : String
  role : Option IpRole
  assignedTo : Option Nat
  tenant : Option Nat
  deriving DecidableEq, Repr

structure Vlan where
  id : Nat
  vid : Nat
  name : String
  deriving DecidableEq, Repr

structure NetState where
  interfaces : List NbInterface
  macs : List MacR
  ips : List IpR
  vlans : List Vlan
  nextId : Nat
  deriving DecidableEq, Repr

structure EthtoolFact where
  duplex : String
  speed : String
  maxSpeed : String
  port : String
  link : String
  deriving DecidableEq, Repr

/-- A locally observed interface as produced by `Network.scan`; `ipAddrs = []`
models Python's `None` (both are falsy and contribute no addresses). -/
structure LocalNic where
  name : String
  mac : Option String
  ipAddrs : List String
  ethtool : Option EthtoolFact
  virtual : Bool
  /-- `nic["vlan"]`: `none` models the `[]` default, `some v` a parsed id. -/
  vlan : Option Nat
  mtu : Nat
  bonding : Bool
  bondingSlaves : List String
  bridge : Bool
  bridgeSlave : List String
  deriving DecidableEq, Repr

/-- Remote calls of the network reconciler.  `deleteIp` is part of the
client API but is never emitted by the engine. -/
inductive NetOp where
  | deleteInterface (id : Nat)
  | createInterface (i : NbInterface)
  | saveInterface (i : NbInterface)
  | createVlan (v : Vlan)
  | createIp (ip : IpR)
  | saveIp (ip : IpR)
  | deleteIp (id : Nat)
  | createMac (m : MacR)
  | deleteMac (id : Nat)
  deriving DecidableEq, Repr

structure NetRes where
  st : NetState
  trace : List NetOp
  crashed : Bool
  deriving DecidableEq, Repr

/-- `_nic_identifier` with `nic_id = "name"`, local-fact side. -/
def nic_identifier_local (n : LocalNic) : String := n.name

/-- `_nic_identifier` with `nic_id = "name"`, remote-record side. -/
def nic_identifier_nb (i : NbInterface) : String := i.name

/-- Write back a saved interface record (`interface.save()`). -/
def saveInterfaceState (st : NetState) (i : NbInterface) : NetState :=
  { st with interfaces := st.interfaces.map fun j => if j.id == i.id then i else j }

/-- Write back a saved IP record (`netbox_ip.save()`). -/
def saveIpState (st : NetState) (r : IpR) : NetState :=
  { st with ips := st.ips.map fun x => if x.id == r.id then r else x }

/-- Server-side effect of `nic.delete()`: the interface disappears, its MAC
objects and assigned IP addresses are cascade-deleted, and `lag` / `bridge`
references to it are nulled (NetBox `SET_NULL`). -/
def deleteInterfaceCascade (st : NetState) (iid : Nat) : NetState :=
  { st with
    interfaces := (st.interfaces.filter fun j => !(j.id == iid)).map fun j =>
      let j := match j.lagRef with
        | some l => if l.id == iid then { j with lagRef := none } else j
        | none => j
      if j.bridgeRef == some iid then { j with bridgeRef := none } else j
    macs := st.macs.filter fun m => !(m.interfaceId == iid)
    ips := st.ips.filter fun r => !(r.assignedTo == some iid) }

/-- `get_netbox_type_for_nic` on a physical server. -/
def get_netbox_type_for_nic (nic : LocalNic) : IfType :=
  if nic.bonding then .lagT
  else if nic.bridge then .bridgeT
  else if nic.virtual then .virt
  else
    match nic.ethtool with
    | none => .otherT
    | some e =>
      let max_speed := if e.maxSpeed == "-" then e.speed else e.maxSpeed
      let fibre := e.port == "FIBRE" || e.port == "Direct Attach Copper"
      if max_speed == "10000Mb/s" then (if fibre then .sfpPlus10 else .tenGBaseT)
      else if max_speed == "25000Mb/s" then (if fibre then .sfp28 else .otherT)
      else if max_speed == "5000Mb/s" then .fiveGBaseT
      else if max_speed == "2500Mb/s" then .twoHalfGBaseT
      else if max_speed == "1000Mb/s" then (if fibre then .sfp1 else .oneGBaseT)
      else .otherT

/-- `get_or_create_vlan`. -/
def get_or_create_vlan (vid : Nat) (st : NetState) : Vlan × NetState × List NetOp :=
  match st.vlans.find? (fun v => v.vid == vid) with
  | some v => (v, st, [])
  | none =>
    let v : Vlan := { id := st.nextId, vid := vid, name := "VLAN " ++ toString vid }
    (v, { st with vlans := st.vlans ++ [v], nextId := st.nextId + 1 }, [NetOp.createVlan v])

/-- Re-fetch an interface record from the remote state by id (source line
332); the record is always present, having just been fetched or created. -/
def refetched (st : NetState) (iface0 : NbInterface) : NbInterface :=
  (st.interfaces.find? (fun j => j.id == iface0.id)).getD iface0

/-- `reset_vlan_on_interface` with LLDP disabled (`lldp_vlan is None`). -/
def reset_vlan_on_interface (nic : LocalNic) (iface0 : NbInterface) (st : NetState) :
    Bool × NbInterface × NetState × List NetOp :=
  let iface := refetched st iface0
  match nic.vlan with
  | none =>
    if iface.mode ≠ none || iface.taggedVlans.length > 0 then
      (true, { iface with mode := none, taggedVlans := [], untaggedVlan := none }, st, [])
    else (false, iface, st, [])
  | some v =>
    if v ≠ 0 &&
        (iface.mode == none ||
          (iface.mode == some IfMode.access ||
            iface.taggedVlans.length ≠ 1 ||
            (match iface.taggedVlans with
              | w :: _ => w.vid ≠ v
              | [] => false))) then
      let gv := get_or_create_vlan v st
      (true,
        { iface with
          mode := some IfMode.tagged
          taggedVlans := [{ id := gv.1.id, vid := gv.1.vid }]
          untaggedVlan := none },
        gv.2.1, gv.2.2)
    else (false, iface, st, [])

/-- The cleaning step of `update_interface_macs`: delete a fetched MAC
object whose address is not in the local list. -/
def macCleanStep (macs : List String) (p : NetState × List NetOp) (nm : MacR) :
    NetState × List NetOp :=
  if !(macs.contains nm.mac) then
    ({ p.1 with macs := p.1.macs.filter fun x => !(x.id == nm.id) },
      p.2 ++ [NetOp.deleteMac nm.id])
  else p

/-- The adding step of `update_interface_macs`: create a local MAC missing
from the initially fetched list. -/
def macAddStep (nb_macs : List MacR) (ifaceId : Nat) (p : NetState × List NetOp)
    (mac : String) : NetState × List NetOp :=
  if !(nb_macs.any fun m => m.mac == mac) then
    let r : MacR := { id := p.1.nextId, mac := mac, interfaceId := ifaceId }
    ({ p.1 with macs := p.1.macs ++ [r], nextId := p.1.nextId + 1 },
      p.2 ++ [NetOp.createMac r])
  else p

/-- `update_interface_macs` (NetBox >= 4.2): delete MAC objects not in
`macs`, create the missing ones; the membership test for additions uses the
initially fetched list. -/
def update_interface_macs (ifaceId : Nat) (macs : List String) (st : NetState) :
    NetState × List NetOp :=
  let nb_macs := st.macs.filter fun m => m.interfaceId == ifaceId
  let p := nb_macs.foldl (macCleanStep macs) (st, [])
  macs.foldl (macAddStep nb_macs ifaceId) p

/-- `create_netbox_nic` with LLDP disabled. -/
def create_netbox_nic (nic : LocalNic) (st : NetState) :
    NbInterface × NetState × List NetOp :=
  let t := get_netbox_type_for_nic nic
  let enabled := !(match nic.ethtool with
    | some e => e.link == "no"
    | none => false)
  let iface : NbInterface :=
    { id := st.nextId, name := nic.name, macAddress := nic.mac
      mtu := if nic.mtu ≠ 0 then some nic.mtu else none
      duplex := none, speed := none, typ := some t, mode := none
      taggedVlans := [], untaggedVlan := none, lagRef := none
      bridgeRef := none, enabled := enabled }
  let st := { st with interfaces := st.interfaces ++ [iface], nextId := st.nextId + 1 }
  let ops := [NetOp.createInterface iface]
  match nic.vlan with
  | some v =>
    if v ≠ 0 then
      let gv := get_or_create_vlan v st
      let iface := { iface with
        mode := some IfMode.tagged
        taggedVlans := [{ id := gv.1.id, vid := gv.1.vid }] }
      (iface, saveInterfaceState gv.2.1 iface, ops ++ gv.2.2 ++ [NetOp.saveInterface iface])
    else (iface, st, ops)
  | none => (iface, st, ops)

/-- `create_or_update_netbox_ip_on_interface` (tenant of the server: none). -/
def create_or_update_netbox_ip_on_interface (ip : String) (ifaceId : Nat)
    (st : NetState) : NetState × List NetOp :=
  let netbox_ips := st.ips.filter fun r => r.address == ip
  match netbox_ips with
  | [] =>
    let r : IpR := { id := st.nextId, address := ip, role := none
                     assignedTo := some ifaceId, tenant := none }
    ({ st with ips := st.ips ++ [r], nextId := st.nextId + 1 }, [NetOp.createIp r])
  | first :: _ =>
    if first.role == some IpRole.anycast then
      let unassigned := netbox_ips.filter fun r => r.assignedTo == none
      let assignedHere := netbox_ips.filter fun r => r.assignedTo == some ifaceId
      match unassigned with
      | u :: _ =>
        let u2 := { u with assignedTo := some ifaceId }
        (saveIpState st u2, [NetOp.saveIp u2])
      | [] =>
        if assignedHere.isEmpty then
          let r : IpR := { id := st.nextId, address := ip, role := some IpRole.anycast
                           assignedTo := some ifaceId, tenant := none }
          ({ st with ips := st.ips ++ [r], nextId := st.nextId + 1 }, [NetOp.createIp r])
        else (st, [])
    else
      match first.assignedTo with
      | none =>
        let r2 := { first with assignedTo := some ifaceId }
        (saveIpState st r2, [NetOp.saveIp r2])
      | some j =>
        if j ≠ ifaceId then
          let r2 := { first with assignedTo := some ifaceId }
          (saveIpState st r2, [NetOp.saveIp r2])
        else (st, [])

/-- The LAG-consistency step of the per-NIC loop (network.py lines
694-701).  `none` models the uncaught `StopIteration` raised by
`next(item for item in self.nics if item["name"] == interface.lag.name)`
when no local interface bears the parent's name. -/
def lagConsistencyStep (nics : List LocalNic) (nicName : String)
    (iface : NbInterface) : Option (Bool × NbInterface) :=
  match iface.lagRef with
  | none => some (false, iface)
  | some l =>
    match nics.find? (fun item => item.name == l.name) with
    | none => none
    | some local_lag_int =>
      if !(local_lag_int.bondingSlaves.contains nicName) then
        some (true, { iface with lagRef := none })
      else some (false, iface)

/-- `int(speed.replace("Mb/s", "000").replace("Gb/s", "000000"))`;
`none` models the `ValueError` of `int` on a malformed string. -/
def parseSpeed (s : String) : Option Nat :=
  strToNat (strReplace (strReplace s "Mb/s" "000") "Gb/s" "000000")

/-- One iteration of the `for ip in nic["ip"]` loop: sync one local
address onto the interface. -/
def ipSyncStep (ifaceId : Nat) (p : NetState × List NetOp) (ip : String) :
    NetState × List NetOp :=
  let r := create_or_update_netbox_ip_on_interface ip ifaceId p.1
  (r.1, p.2 ++ r.2)

structure NetAcc where
  st : NetState
  trace : List NetOp
  crashed : Bool
  deriving Repr

/-- Accumulator of the per-NIC update loop body: the locally held interface
record, the remote state, the calls made so far, the `nic_update` counter,
and the crash flag.  Once crashed, the remaining statements of the loop
body are skipped (the exception aborts them). -/
structure NicAcc where
  iface : NbInterface
  st : NetState
  ops : List NetOp
  n : Nat
  crashed : Bool
  deriving Repr

/-- Lines 614-620: find the interface by its identity key, creating it when
absent. -/
def stage_find_or_create (nic : LocalNic) (st : NetState) : NicAcc :=
  match st.interfaces.find? (fun i => nic_identifier_nb i == nic_identifier_local nic) with
  | some i => { iface := i, st := st, ops := [], n := 0, crashed := false }
  | none =>
    let c := create_netbox_nic nic st
    { iface := c.1, st := c.2.1, ops := c.2.2, n := 0, crashed := false }

/-- Lines 624-625: the VLAN mode reconciliation. -/
def stage_vlan (nic : LocalNic) (a : NicAcc) : NicAcc :=
  if a.crashed then a else
  let rv := reset_vlan_on_interface nic a.iface a.st
  { a with iface := rv.2.1, st := rv.2.2.1, ops := a.ops ++ rv.2.2.2
           n := a.n + (if rv.1 then 1 else 0) }

/-- Lines 627-634: rename the interface when the local name differs. -/
def stage_name (nic : LocalNic) (a : NicAcc) : NicAcc :=
  if a.crashed then a else
  if nic.name ≠ a.iface.name then
    { a with iface := { a.iface with name := nic.name }, n := a.n + 1 }
  else a

/-- Lines 636-639: reconcile the MAC-address objects (NetBox >= 4.2). -/
def stage_macs (nic : LocalNic) (a : NicAcc) : NicAcc :=
  if a.crashed then a else
  match nic.mac with
  | some m =>
    let r := update_interface_macs a.iface.id [m] a.st
    { a with st := r.1, ops := a.ops ++ r.2 }
  | none => a

/-- Lines 641-661: update the primary MAC when it differs. -/
def stage_primary_mac (nic : LocalNic) (a : NicAcc) : NicAcc :=
  if a.crashed then a else
  match nic.mac with
  | some m =>
    if a.iface.macAddress ≠ some m then
      { a with iface := { a.iface with macAddress := some m }, n := a.n + 1 }
    else a
  | none => a

/-- Lines 663-669: update the MTU when it differs. -/
def stage_mtu (nic : LocalNic) (a : NicAcc) : NicAcc :=
  if a.crashed then a else
  if some nic.mtu ≠ a.iface.mtu then
    { a with iface := { a.iface with mtu := some nic.mtu }, n := a.n + 1 }
  else a

/-- Lines 671-685: duplex and speed updates on a physical server; the
`int()` conversion of a malformed speed string raises. -/
def stage_duplex_speed (nic : LocalNic) (a : NicAcc) : NicAcc :=
  if a.crashed then a else
  match nic.ethtool with
  | none => a
  | some e =>
    let a1 :=
      if e.duplex ≠ "-" && a.iface.duplex ≠ some (strToLower e.duplex) then
        { a with iface := { a.iface with duplex := some (strToLower e.duplex) }
                 n := a.n + 1 }
      else a
    if e.speed ≠ "-" then
      match parseSpeed e.speed with
      | none => { a1 with crashed := true }
      | some sp =>
        if some sp ≠ a1.iface.speed then
          { a1 with iface := { a1.iface with speed := some sp }, n := a1.n + 1 }
        else a1
    else a1

/-- Lines 687-692: reconcile the interface type. -/
def stage_type (nic : LocalNic) (a : NicAcc) : NicAcc :=
  if a.crashed then a else
  let t := get_netbox_type_for_nic nic
  if a.iface.typ == none || a.iface.typ ≠ some t then
    { a with iface := { a.iface with typ := some t }, n := a.n + 1 }
  else a

/-- Lines 694-701: the LAG-consistency step; `lagConsistencyStep` returning
`none` is the uncaught `StopIteration`. -/
def stage_lag (allNics : List LocalNic) (nicName : String) (a : NicAcc) : NicAcc :=
  if a.crashed then a else
  match lagConsistencyStep allNics nicName a.iface with
  | none => { a with crashed := true }
  | some lg => { a with iface := lg.2, n := a.n + (if lg.1 then 1 else 0) }

/-- Lines 713-716: sync every local address of the NIC. -/
def stage_ips (nic : LocalNic) (a : NicAcc) : NicAcc :=
  if a.crashed then a else
  let r := nic.ipAddrs.foldl (ipSyncStep a.iface.id) (a.st, [])
  { a with st := r.1, ops := a.ops ++ r.2 }

/-- Lines 717-718: one batched save when any field changed. -/
def stage_save (a : NicAcc) : NicAcc :=
  if a.crashed then a else
  if a.n > 0 then
    { a with st := saveInterfaceState a.st a.iface
             ops := a.ops ++ [NetOp.saveInterface a.iface] }
  else a

/-- One iteration of the `for nic in self.nics` update loop of
`create_or_update_netbox_network_cards` (lines 613-718), with LLDP/cabling
disabled: the stages above in source order. -/
def perNicStep (allNics : List LocalNic) (acc : NetAcc) (nic : LocalNic) : NetAcc :=
  if acc.crashed then acc else
  let a := stage_save (stage_ips nic (stage_lag allNics nic.name (stage_type nic
    (stage_duplex_speed nic (stage_mtu nic (stage_primary_mac nic (stage_macs nic
    (stage_name nic (stage_vlan nic (stage_find_or_create nic acc.st))))))))))
  { st := a.st, trace := acc.trace ++ a.ops, crashed := a.crashed }

/-- One inner iteration of `_set_bonding_interfaces`: point one slave at
the bond. -/
def bondSlaveStep (bond_int : NbInterface) (q : NetState × List NetOp × Bool)
    (slave : LocalNic) : NetState × List NetOp × Bool :=
  if q.2.2 then q else
  match q.1.interfaces.find? (fun i => nic_identifier_nb i == slave.name) with
  | none => (q.1, q.2.1, true)
  | some slave_int =>
    let needs :=
      match slave_int.lagRef with
      | none => true
      | some l => l.id ≠ bond_int.id
    if needs then
      let s2 := { slave_int with
        lagRef := some { id := bond_int.id, name := bond_int.name } }
      (saveInterfaceState q.1 s2, q.2.1 ++ [NetOp.saveInterface s2], false)
    else (q.1, q.2.1, false)

/-- One outer iteration of `_set_bonding_interfaces`. -/
def bondStep (nics : List LocalNic) (p : NetState × List NetOp × Bool)
    (nic : LocalNic) : NetState × List NetOp × Bool :=
  if p.2.2 then p else
  match p.1.interfaces.find? (fun i => nic_identifier_nb i == nic.name) with
  | none => (p.1, p.2.1, true)
  | some bond_int =>
    (nics.filter fun s => nic.bondingSlaves.contains s.name).foldl
      (bondSlaveStep bond_int) (p.1, p.2.1, false)

/-- `_set_bonding_interfaces`: the second pass that re-derives LAG
parent/slave links.  A `None` result of `get_netbox_network_card` would
crash on attribute access, modelled by the crash flag. -/
def set_bonding_interfaces (nics : List LocalNic) (st : NetState) :
    NetState × List NetOp × Bool :=
  (nics.filter (·.bonding)).foldl (bondStep nics) (st, [], false)

/-- One inner iteration of `_set_bridge_interfaces`. -/
def bridgeSlaveStep (bridge_int : NbInterface) (q : NetState × List NetOp × Bool)
    (slave : LocalNic) : NetState × List NetOp × Bool :=
  if q.2.2 then q else
  match q.1.interfaces.find? (fun i => nic_identifier_nb i == slave.name) with
  | none => (q.1, q.2.1, true)
  | some slave_int =>
    let needs :=
      match slave_int.bridgeRef with
      | none => true
      | some b => b ≠ bridge_int.id
    if needs then
      let s2 := { slave_int with bridgeRef := some bridge_int.id }
      (saveInterfaceState q.1 s2, q.2.1 ++ [NetOp.saveInterface s2], false)
    else (q.1, q.2.1, false)

/-- One outer iteration of `_set_bridge_interfaces`. -/
def bridgeStep (nics : List LocalNic) (p : NetState × List NetOp × Bool)
    (nic : LocalNic) : NetState × List NetOp × Bool :=
  if p.2.2 then p else
  match p.1.interfaces.find? (fun i => nic_identifier_nb i == nic.name) with
  | none => (p.1, p.2.1, true)
  | some bridge_int =>
    (nics.filter fun s => nic.bridgeSlave.contains s.name).foldl
      (bridgeSlaveStep bridge_int) (p.1, p.2.1, false)

/-- `_set_bridge_interfaces`: the second pass for bridge parent/slave
links. -/
def set_bridge_interfaces (nics : List LocalNic) (st : NetState) :
    NetState × List NetOp × Bool :=
  (nics.filter (·.bridge)).foldl (bridgeStep nics) (st, [], false)

/-- One iteration of the unknown-interface deletion loop: delete the remote
interface when its identity key is absent locally, otherwise keep it in the
surviving list. -/
def deleteUnknownStep (local_nics : List String)
    (p : List NbInterface × NetState × List NetOp) (i : NbInterface) :
    List NbInterface × NetState × List NetOp :=
  if !(local_nics.contains (nic_identifier_nb i)) then
    (p.1, deleteInterfaceCascade p.2.1 i.id, p.2.2 ++ [NetOp.deleteInterface i.id])
  else (p.1 ++ [i], p.2.1, p.2.2)

/-- One iteration of the stale-IP loop: unassign the record when its
address is not known locally. -/
def unassignStaleStep (all_local_ips : List String)
    (p : NetState × List NetOp) (r : IpR) : NetState × List NetOp :=
  if !(all_local_ips.contains r.address) then
    let r2 := { r with assignedTo := none }
    (saveIpState p.1 r2, p.2 ++ [NetOp.saveIp r2])
  else p

/-- `create_or_update_netbox_network_cards`: delete unknown interfaces (with
the remote cascade on their MAC and IP objects), unassign IPs of surviving
interfaces that are unknown locally, run the per-NIC update loop, then the
bonding and bridge passes. -/
def create_or_update_netbox_network_cards (nics : List LocalNic) (st : NetState) :
    NetRes :=
  let local_nics := nics.map nic_identifier_local
  -- delete unknown interfaces
  let pA := st.interfaces.foldl (deleteUnknownStep local_nics) ([], st, [])
  let survivors := pA.1
  let stA := pA.2.1
  let trA := pA.2.2
  -- delete IP on netbox that are not known on this server
  let all_local_ips := (nics.map (·.ipAddrs)).flatten
  let pB :=
    if survivors.length ≠ 0 then
      let ids := survivors.map (·.id)
      let netbox_ips := stA.ips.filter fun r =>
        match r.assignedTo with
        | some j => ids.contains j
        | none => false
      netbox_ips.foldl (unassignStaleStep all_local_ips) (stA, [])
    else (stA, [])
  let stB := pB.1
  let trB := pB.2
  -- update each nic
  let accC := nics.foldl (perNicStep nics) { st := stB, trace := [], crashed := false }
  if accC.crashed then
    { st := accC.st, trace := trA ++ trB ++ accC.trace, crashed := true }
  else
    let d := set_bonding_interfaces nics accC.st
    if d.2.2 then
      { st := d.1, trace := trA ++ trB ++ (accC.trace ++ d.2.1), crashed := true }
    else
      let e := set_bridge_interfaces nics d.1
      { st := e.1, trace := trA ++ trB ++ (accC.trace ++ d.2.1 ++ e.2.1)
        crashed := e.2.2 }

/-! ## The full reconciliation (inventory + network) -/

structure AgentRes where
  invSt : InvState
  netSt : NetState
  invTrace : List InvOp
  netTrace : List NetOp
  crashed : Bool
  deriving Repr

/-- One full agent run: the module-inventory reconciliation
(`ModuleInventory.create_or_update`) followed by the network
reconciliation (`Network.create_or_update_netbox_network_cards`). -/
def fullReconcile (f : InvFacts) (nics : List LocalNic) (catalog : List ModuleTypeR)
    (invSt : InvState) (netSt : NetState) : AgentRes :=
  let r := create_or_update f catalog invSt
  if r.crashed then
    { invSt := r.st, netSt := netSt, invTrace := r.trace, netTrace := [], crashed := true }
  else
    let n := create_or_update_netbox_network_cards nics netSt
    { invSt := r.st, netSt := n.st, invTrace := r.trace, netTrace := n.trace
      crashed := n.crashed }

/-! ## Concrete inputs used by refutations and bug demonstrations -/

/-- Local facts with a single serial-less PSU (`lshw` reports no serial;
`psu.get("serial", "")` yields `""`). -/
def c1_facts : InvFacts :=
  { cpus := [], memories := [], disks := [], raidCards := [], nics := [],
    psus := [{ product := "P", serial := "" }] }

def c1_catalog : List ModuleTypeR :=
  [{ id := 30, partNumber := "P", model := "PSU Model", profile := "Power supply" }]

def c1_inv0 : InvState :=
  { bays := [{ id := 1, name := "PSU 1" }], modules := [], nextId := 100 }

def c1_net0 : NetState :=
  { interfaces := [], macs := [], ips := [], vlans := [], nextId := 1 }

/-- Two CPU bays, one of which holds a CPU module whose part number matches
no local CPU. -/
def c2_state : InvState :=
  { bays := [{ id := 1, name := "CPU 1" }, { id := 2, name := "CPU 2" }]
    modules := [{ id := 10
                  bay := { id := 1, name := "CPU 1" }
                  typ := { id := 20, partNumber := "9999", model := "Old CPU", profile := "CPU" }
                  serial := "" }]
    nextId := 100 }

def c2_catalog : List ModuleTypeR :=
  [{ id := 21, partNumber := "8888", model := "New CPU", profile := "CPU" }]

def c6_nic : LocalNic :=
  { name := "eth0", mac := none, ipAddrs := [], ethtool := none, virtual := false,
    vlan := some 60, mtu := 1500, bonding := false, bondingSlaves := [],
    bridge := false, bridgeSlave := [] }

/-- A remote interface in mode "Tagged (All)" whose tagged set is exactly
the local VLAN 60. -/
def c6_iface : NbInterface :=
  { id := 1, name := "eth0", macAddress := none, mtu := none, duplex := none,
    speed := none, typ := some IfType.oneGBaseT, mode := some IfMode.taggedAll,
    taggedVlans := [{ id := 7, vid := 60 }], untaggedVlan := none,
    lagRef := none, bridgeRef := none, enabled := true }

def c6_state : NetState :=
  { interfaces := [c6_iface], macs := [], ips := [], vlans := [], nextId := 100 }

/-- One remote interface absent locally, with an assigned IP address whose
address string is not local either. -/
def c8_state : NetState :=
  { interfaces := [{ id := 1, name := "remote0", macAddress := none, mtu := none
                     duplex := none, speed := none, typ := some IfType.oneGBaseT, mode := none
                     taggedVlans := [], untaggedVlan := none, lagRef := none, bridgeRef := none
                     enabled := true }]
    macs := []
    ips := [{ id := 5, address := "10.0.0.1/24", role := none, assignedTo := some 1
              tenant := none }]
    vlans := [], nextId := 100 }

/-- A remote interface whose LAG parent is named `bond0`. -/
def c9_iface : NbInterface :=
  { id := 1, name := "eth0", macAddress := none, mtu := none, duplex := none,
    speed := none, typ := some IfType.oneGBaseT, mode := none, taggedVlans := [],
    untaggedVlan := none, lagRef := some { id := 9, name := "bond0" },
    bridgeRef := none, enabled := true }

/-- Local facts containing `eth0` but no interface named `bond0`. -/
def c9_nics : List LocalNic :=
  [{ name := "eth0", mac := none, ipAddrs := [], ethtool := none, virtual := false,
     vlan := none, mtu := 1500, bonding := false, bondingSlaves := [],
     bridge := false, bridgeSlave := [] }]

/-- The convergence target of the tagged-VLAN branch: the remote mode is a
tagged mode (Tagged or Tagged-All) and the tagged set is exactly one VLAN
carrying the local tag.  The code leaves the interface unchanged exactly in
this situation. -/
abbrev taggedConverged (cur : NbInterface) (v : Nat) : Prop :=
  (cur.mode = some IfMode.tagged ∨ cur.mode = some IfMode.taggedAll) ∧
  cur.taggedVlans.map (·.vid) = [v]

/-- The spec's C6 scenario: a remote interface already in tagged mode but
with tagged set [50] while the local VLAN is 60. -/
def c6_iface50 : NbInterface :=
  { c6_iface with mode := some IfMode.tagged, taggedVlans := [{ id := 5, vid := 50 }] }

def c6_state50 : NetState :=
  { interfaces := [c6_iface50], macs := [], ips := [], vlans := [], nextId := 100 }

/-- Two anycast records for one address, both assigned to other
interfaces (ids 5 and 6). -/
def c7_state : NetState :=
  { interfaces := [], macs := []
    ips := [{ id := 11, address := "10.0.0.9/32", role := some IpRole.anycast
              assignedTo := some 5, tenant := none },
            { id := 12, address := "10.0.0.9/32", role := some IpRole.anycast
              assignedTo := some 6, tenant := none }]
    vlans := [], nextId := 100 }

/-- PSU scenario: a stale remote module (serial SOLD), a matching one
(serial S1 in bay 1), and local PSUs S1 and S2. -/
def c5_psus : List PsuFact :=
  [{ product := "P", serial := "S1" }, { product := "P", serial := "S2" }]

def c5_catalog : List ModuleTypeR :=
  [{ id := 30, partNumber := "P", model := "PSU Model", profile := "Power supply" }]

def c5_state : InvState :=
  { bays := [{ id := 1, name := "PSU 1" }, { id := 2, name := "PSU 2" }]
    modules := [{ id := 10
                  bay := { id := 2, name := "PSU 2" }
                  typ := { id := 30, partNumber := "P", model := "PSU Model"
                           profile := "Power supply" }
                  serial := "SOLD" },
                { id := 11
                  bay := { id := 1, name := "PSU 1" }
                  typ := { id := 30, partNumber := "P", model := "PSU Model"
                           profile := "Power supply" }
                  serial := "S1" }]
    nextId := 100 }

/-- The bay targeted by a module-create call, for trace analysis. -/
def createdBayId : InvOp → Option Nat
  | InvOp.createModule b _ _ => some b
  | _ => none

/-! ## Claim C8 (amended): definitions for trace analysis -/

/-- No operation of the list is an IP-address delete call. -/
def noIpDelete (l : List NetOp) : Prop :=
  ∀ op ∈ l, ∀ i, op ≠ NetOp.deleteIp i

/-- A local interface whose current address set no longer contains the old
address `10.0.0.5/24`. -/
def c8_surv_nic : LocalNic :=
  { name := "eth0", mac := none, ipAddrs := ["192.168.1.2/24"], ethtool := none,
    virtual := false, vlan := none, mtu := 1500, bonding := false,
    bondingSlaves := [], bridge := false, bridgeSlave := [] }

/-- The surviving remote interface matching `eth0`. -/
def c8_surv_iface : NbInterface :=
  { id := 1, name := "eth0", macAddress := none, mtu := none, duplex := none,
    speed := none, typ := some IfType.oneGBaseT, mode := none, taggedVlans := [],
    untaggedVlan := none, lagRef := none, bridgeRef := none, enabled := true }

/-- A stale remote IP record still assigned to the surviving interface. -/
def c8_surv_rec : IpR :=
  { id := 5, address := "10.0.0.5/24", role := none, assignedTo := some 1,
    tenant := none }

def c8_surv_state : NetState :=
  { interfaces := [c8_surv_iface], macs := [], ips := [c8_surv_rec],
    vlans := [], nextId := 100 }

/-! ## Claim C1 -/

/-- C1: the full reconciliation is *not* idempotent.  With a single local
PSU whose serial is empty (absent), the first run creates a PSU module with
serial `""`; since `""` is filtered out of the local serial set, the second
run — with unchanged local facts and the remote state produced by the first
run — deletes that very module.  This contradicts the claimed zero
create/update/delete calls on the second run (and the PSU routine's own
docstring, which promises to delete only PSUs "not present in the local
system"). -/
theorem c1_second_run_performs_delete :
    (fullReconcile c1_facts [] c1_catalog c1_inv0 c1_net0).invTrace =
      [InvOp.createModule 1 30 ""] ∧
    (fullReconcile c1_facts [] c1_catalog
        (fullReconcile c1_facts [] c1_catalog c1_inv0 c1_net0).invSt
        (fullReconcile c1_facts [] c1_catalog c1_inv0 c1_net0).netSt).invTrace =
      [InvOp.deleteModule 100] ∧
    (fullReconcile c1_facts [] c1_catalog
        (fullReconcile c1_facts [] c1_catalog c1_inv0 c1_net0).invSt
        (fullReconcile c1_facts [] c1_catalog c1_inv0 c1_net0).netSt).netTrace = [] :=
  ⟨rfl, rfl, rfl⟩

/-! ## Claim C2 -/

/-- C2: bay exclusivity is violated by CPU allocation.  With one local CPU
of part number `8888` and a remote CPU module of part number `9999` sitting
in bay `CPU 1`, `do_netbox_cpus` pops `CPU 1` from the free-bay list (bays
holding non-matching modules are never reserved) and creates the new module
there: after the run two distinct modules reference bay id 1. -/
theorem c2_two_modules_in_one_bay :
    (do_netbox_cpus [{ product := "8888" }] c2_catalog c2_state).crashed = false ∧
    (do_netbox_cpus [{ product := "8888" }] c2_catalog c2_state).trace =
      [InvOp.createModule 1 21 ""] ∧
    ∃ m1, m1 ∈ (do_netbox_cpus [{ product := "8888" }] c2_catalog c2_state).st.modules ∧
    ∃ m2, m2 ∈ (do_netbox_cpus [{ product := "8888" }] c2_catalog c2_state).st.modules ∧
      m1.id ≠ m2.id ∧ m1.bay.id = m2.bay.id := by
  refine ⟨rfl, rfl,
    { id := 10, bay := { id := 1, name := "CPU 1" },
      typ := { id := 20, partNumber := "9999", model := "Old CPU", profile := "CPU" },
      serial := "" }, ?_,
    { id := 100, bay := { id := 1, name := "CPU 1" },
      typ := { id := 21, partNumber := "8888", model := "New CPU", profile := "CPU" },
      serial := "" }, ?_, by decide, rfl⟩
  · decide
  · decide

/-! ## Claim C9 -/

/-- C9: when the remote interface has a LAG parent whose name is absent
from the local interface list, the LAG-consistency step does not clear the
reference — `next(item for item in self.nics if item["name"] ==
interface.lag.name)` has no default and raises an uncaught `StopIteration`
(modelled by `none`), aborting the run instead. -/
theorem c9_lag_parent_absent_raises :
    lagConsistencyStep c9_nics "eth0" c9_iface = none := rfl

/-! ## Claim C8 (counterexample) -/

/-- C8 counterexample: an IP address bound to an interface that the run
deletes is never unassigned: with no local interfaces, the run deletes the
remote interface (trace contains no `saveIp` call for IP record 5) and the
IP record disappears with the server-side cascade instead of being kept
with a cleared association. -/
theorem c8_deleted_interface_ip_never_unassigned :
    (create_or_update_netbox_network_cards [] c8_state).trace =
      [NetOp.deleteInterface 1] ∧
    (create_or_update_netbox_network_cards [] c8_state).st.ips = [] :=
  ⟨rfl, rfl⟩

/-! ## Claim C6 (counterexample) -/

/-- C6 counterexample: with a local VLAN tag 60 and a remote interface in
mode "Tagged (All)" whose tagged set is exactly `[60]`, the remote
mode/tagged-set pair differs from {tagged, [60]} — the claim demands a
reset to mode=tagged — yet `reset_vlan_on_interface` reports no update and
leaves the interface in mode "Tagged (All)". -/
theorem c6_tagged_all_is_not_reset :
    reset_vlan_on_interface c6_nic c6_iface c6_state =
      (false, c6_iface, c6_state, []) ∧
    c6_iface.mode ≠ some IfMode.tagged := by
  exact ⟨rfl, by decide⟩

/-! ## Claim C3 -/

theorem splitOnCharList_no_sep (c : Char) (a : List Char) (ha : c ∉ a) :
    splitOnCharList c a = [a] := by
  induction a with
  | nil => rfl
  | cons x xs ih =>
    have hx : ¬(x = c) := fun h => ha (h ▸ List.mem_cons_self x xs)
    have hxs : c ∉ xs := fun h => ha (List.mem_cons_of_mem x h)
    simp only [splitOnCharList, if_neg hx, ih hxs]

theorem splitOnCharList_append_sep (c : Char) (a rest : List Char) (ha : c ∉ a) :
    splitOnCharList c (a ++ c :: rest) = a :: splitOnCharList c rest := by
  induction a with
  | nil => simp [splitOnCharList]
  | cons x xs ih =>
    have hx : ¬(x = c) := fun h => ha (h ▸ List.mem_cons_self x xs)
    have hxs : c ∉ xs := fun h => ha (List.mem_cons_of_mem x h)
    simp only [List.cons_append, splitOnCharList, List.append_eq, if_neg hx, ih hxs]

theorem strMk_data (s : String) : String.mk s.data = s := by
  cases s
  rfl

/-- C3: deterministic bay naming.  A RAID controller with slot `s` is named
`"RAID.Emb.{s+1}.1"` when not external and `"RAID.Slot.{s}.1"` when
external (`raidCardBayName` is the inline computation of
`do_netbox_raid_cards`); a disk whose physical-disk identifier is
`ctrl:box:bay` (components colon-free) is named `"Disk Box {box} Bay
{bay}"` (`diskBayName` is the inline computation of `do_netbox_disks`).
Both computations are pure functions of those attributes, so the same
inputs always yield the same name. -/
theorem c3_deterministic_bay_naming (s : Nat) (ctrl box bay : String)
    (hc : ':' ∉ ctrl.data) (hb : ':' ∉ box.data) (hy : ':' ∉ bay.data) :
    raidCardBayName (some s) false = some ("RAID.Emb." ++ toString (s + 1) ++ ".1") ∧
    raidCardBayName (some s) true = some ("RAID.Slot." ++ toString s ++ ".1") ∧
    diskBayName (ctrl ++ ":" ++ box ++ ":" ++ bay) =
      some ("Disk Box " ++ box ++ " Bay " ++ bay) := by
  refine ⟨rfl, rfl, ?_⟩
  have hdata : (ctrl ++ ":" ++ box ++ ":" ++ bay).data =
      ctrl.data ++ ':' :: (box.data ++ ':' :: bay.data) := by
    simp [String.data_append]
  have hsplit : splitOnCharList ':' (ctrl ++ ":" ++ box ++ ":" ++ bay).data =
      [ctrl.data, box.data, bay.data] := by
    rw [hdata, splitOnCharList_append_sep ':' ctrl.data _ hc,
      splitOnCharList_append_sep ':' box.data _ hb,
      splitOnCharList_no_sep ':' bay.data hy]
  simp only [diskBayName, splitOnCharStr, hsplit, List.map_cons, List.map_nil,
    strMk_data]

/-- Witness for C3 at the spec's own example: disk identifier `"0:1:3"`
gives bay `"Disk Box 1 Bay 3"`, RAID slot 2. -/
theorem c3_deterministic_bay_naming_witness :
    raidCardBayName (some 2) false = some ("RAID.Emb." ++ toString (2 + 1) ++ ".1") ∧
    raidCardBayName (some 2) true = some ("RAID.Slot." ++ toString 2 ++ ".1") ∧
    diskBayName ("0" ++ ":" ++ "1" ++ ":" ++ "3") =
      some ("Disk Box " ++ "1" ++ " Bay " ++ "3") :=
  c3_deterministic_bay_naming 2 "0" "1" "3" (by decide) (by decide) (by decide)

/-! ## Claim C4 -/

theorem cpuStep_no_capacity_err (catalog : List ModuleTypeR) (acc : CpuAcc)
    (cpu : CpuFact) (h : InvErr.cpuCapacity ∉ acc.errs) :
    InvErr.cpuCapacity ∉ (cpuStep catalog acc cpu).errs := by
  unfold cpuStep
  repeat' split
  all_goals simp_all [List.mem_append]
  all_goals repeat' split
  all_goals simp_all [List.mem_append]

theorem cpuFold_no_capacity_err (catalog : List ModuleTypeR) (cpus : List CpuFact)
    (acc : CpuAcc) (h : InvErr.cpuCapacity ∉ acc.errs) :
    InvErr.cpuCapacity ∉ (cpus.foldl (cpuStep catalog) acc).errs := by
  induction cpus generalizing acc with
  | nil => exact h
  | cons c cs ih =>
    exact ih (cpuStep catalog acc c) (cpuStep_no_capacity_err catalog acc c h)

/-- C4 counterexample: with zero CPU bays and zero locally observed CPUs
the category is aborted with the capacity error, although the number of
bays (0) is not strictly less than the number of CPUs (0); the claim's
"exactly when bays < cpus" is therefore false. -/
theorem c4_capacity_abort_at_zero_zero :
    InvErr.cpuCapacity ∈
      (do_netbox_cpus [] [] { bays := [], modules := [], nextId := 0 }).errs ∧
    ¬((get_netbox_module_bays { bays := [], modules := [], nextId := 0 } "CPU").length <
        ([] : List CpuFact).length) := by
  exact ⟨by decide, by decide⟩

/-- C4 amended: the CPU category is aborted with the capacity error exactly
when the device has zero CPU bays or fewer CPU bays than local CPUs, and an
abort performs no remote operation and leaves the remote state unchanged. -/
theorem c4_capacity_abort_characterization (cpus : List CpuFact)
    (catalog : List ModuleTypeR) (st : InvState) :
    (InvErr.cpuCapacity ∈ (do_netbox_cpus cpus catalog st).errs ↔
      (get_netbox_module_bays st "CPU").length = 0 ∨
        (get_netbox_module_bays st "CPU").length < cpus.length) ∧
    (InvErr.cpuCapacity ∈ (do_netbox_cpus cpus catalog st).errs →
      (do_netbox_cpus cpus catalog st).trace = [] ∧
        (do_netbox_cpus cpus catalog st).st = st) := by
  cases hcond : ((get_netbox_module_bays st "CPU").length == 0 ||
      ((get_netbox_module_bays st "CPU").length > 0 &&
        decide (cpus.length > (get_netbox_module_bays st "CPU").length)))
  case true =>
    have habort : do_netbox_cpus cpus catalog st =
        { st := st, trace := [], errs := [InvErr.cpuCapacity], crashed := false } := by
      unfold do_netbox_cpus
      simp only [hcond, if_true]
    rw [habort]
    have harith : (get_netbox_module_bays st "CPU").length = 0 ∨
        (get_netbox_module_bays st "CPU").length < cpus.length := by
      simp only [Bool.or_eq_true, Bool.and_eq_true, beq_iff_eq, decide_eq_true_eq,
        gt_iff_lt] at hcond
      omega
    exact ⟨⟨fun _ => harith, fun _ => List.mem_singleton.mpr rfl⟩,
      fun _ => ⟨rfl, rfl⟩⟩
  case false =>
    have hrun : do_netbox_cpus cpus catalog st =
        (let acc := cpus.foldl (cpuStep catalog)
          { bays := get_netbox_module_bays st "CPU",
            mods := get_netbox_modules st "CPU", st := st, trace := [], errs := [],
            crashed := false }
         { st := acc.st, trace := acc.trace, errs := acc.errs,
           crashed := acc.crashed }) := by
      unfold do_netbox_cpus
      simp only [hcond, Bool.false_eq_true, if_false]
    rw [hrun]
    have hno := cpuFold_no_capacity_err catalog cpus
      { bays := get_netbox_module_bays st "CPU", mods := get_netbox_modules st "CPU",
        st := st, trace := [], errs := [], crashed := false }
      (by simp)
    refine ⟨⟨fun hmem => absurd hmem hno, fun hor => ?_⟩,
      fun hmem => absurd hmem hno⟩
    exfalso
    rw [Bool.or_eq_false_iff] at hcond
    obtain ⟨h1, h2⟩ := hcond
    rw [Bool.and_eq_false_iff] at h2
    simp only [beq_eq_false_iff_ne, ne_eq, decide_eq_false_iff_not, gt_iff_lt,
      not_lt] at h1 h2
    omega

/-- Witness for C4 at a concrete aborting input: one local CPU, no bays. -/
theorem c4_capacity_abort_witness :
    (do_netbox_cpus [{ product := "8888" }] []
        { bays := [], modules := [], nextId := 0 }).trace = [] ∧
    (do_netbox_cpus [{ product := "8888" }] []
        { bays := [], modules := [], nextId := 0 }).st =
      { bays := [], modules := [], nextId := 0 } :=
  (c4_capacity_abort_characterization [{ product := "8888" }] []
    { bays := [], modules := [], nextId := 0 }).2
    ((c4_capacity_abort_characterization [{ product := "8888" }] []
      { bays := [], modules := [], nextId := 0 }).1.mpr (Or.inl (by decide)))

/-! ## Claim C10 -/

theorem cpuStep_frame (catalog : List ModuleTypeR) (acc : CpuAcc) (cpu : CpuFact) :
    (cpuStep catalog acc cpu).st.bays = acc.st.bays ∧
    (∀ m ∈ acc.st.modules, m ∈ (cpuStep catalog acc cpu).st.modules) ∧
    ∃ added, (cpuStep catalog acc cpu).trace = acc.trace ++ added ∧
      ∀ op ∈ added, ∃ b t, op = InvOp.createModule b t "" := by
  simp only [cpuStep]
  repeat' split
  all_goals refine ⟨rfl, fun m hm => ?_, ?_⟩
  all_goals try exact hm
  all_goals try exact List.mem_append_left _ hm
  all_goals try exact ⟨[], (List.append_nil _).symm, by simp⟩
  all_goals
    exact ⟨[InvOp.createModule _ _ ""], rfl, by
      rintro op hop
      rw [List.mem_singleton] at hop
      exact ⟨_, _, hop⟩⟩

theorem cpuFold_frame (catalog : List ModuleTypeR) (cpus : List CpuFact) (acc : CpuAcc) :
    ((cpus.foldl (cpuStep catalog) acc).st.bays = acc.st.bays) ∧
    (∀ m ∈ acc.st.modules, m ∈ (cpus.foldl (cpuStep catalog) acc).st.modules) ∧
    ∃ added, (cpus.foldl (cpuStep catalog) acc).trace = acc.trace ++ added ∧
      ∀ op ∈ added, ∃ b t, op = InvOp.createModule b t "" := by
  induction cpus generalizing acc with
  | nil => exact ⟨rfl, fun m hm => hm, [], (List.append_nil _).symm, by simp⟩
  | cons c cs ih =>
    obtain ⟨hb1, hm1, a1, ht1, ha1⟩ := cpuStep_frame catalog acc c
    obtain ⟨hb2, hm2, a2, ht2, ha2⟩ := ih (cpuStep catalog acc c)
    refine ⟨hb2.trans hb1, fun m hm => hm2 _ (hm1 _ hm), a1 ++ a2, ?_, ?_⟩
    · show (cs.foldl (cpuStep catalog) (cpuStep catalog acc c)).trace = _
      rw [ht2, ht1, List.append_assoc]
    · intro op hop
      rcases List.mem_append.mp hop with hmem | hmem
      · exact ha1 op hmem
      · exact ha2 op hmem

/-- C10: CPU reconciliation is create-only.  For every input, every remote
call emitted by `do_netbox_cpus` is a module creation (with empty serial);
the device's bay records are unchanged and every pre-existing remote module
is still present afterwards — in particular, existing CPU modules whose
part number matches no local CPU are left in place, never garbage-collected
or mutated. -/
theorem c10_cpu_reconciliation_create_only (cpus : List CpuFact)
    (catalog : List ModuleTypeR) (st : InvState) :
    (∀ op ∈ (do_netbox_cpus cpus catalog st).trace,
      ∃ b t, op = InvOp.createModule b t "") ∧
    (do_netbox_cpus cpus catalog st).st.bays = st.bays ∧
    ∀ m ∈ st.modules, m ∈ (do_netbox_cpus cpus catalog st).st.modules := by
  cases hcond : ((get_netbox_module_bays st "CPU").length == 0 ||
      ((get_netbox_module_bays st "CPU").length > 0 &&
        decide (cpus.length > (get_netbox_module_bays st "CPU").length)))
  case true =>
    have habort : do_netbox_cpus cpus catalog st =
        { st := st, trace := [], errs := [InvErr.cpuCapacity], crashed := false } := by
      unfold do_netbox_cpus
      simp only [hcond, if_true]
    rw [habort]
    exact ⟨by simp, rfl, fun m hm => hm⟩
  case false =>
    have hrun : do_netbox_cpus cpus catalog st =
        { st := (cpus.foldl (cpuStep catalog)
            { bays := get_netbox_module_bays st "CPU",
              mods := get_netbox_modules st "CPU", st := st, trace := [], errs := [],
              crashed := false }).st
          trace := (cpus.foldl (cpuStep catalog)
            { bays := get_netbox_module_bays st "CPU",
              mods := get_netbox_modules st "CPU", st := st, trace := [], errs := [],
              crashed := false }).trace
          errs := (cpus.foldl (cpuStep catalog)
            { bays := get_netbox_module_bays st "CPU",
              mods := get_netbox_modules st "CPU", st := st, trace := [], errs := [],
              crashed := false }).errs
          crashed := (cpus.foldl (cpuStep catalog)
            { bays := get_netbox_module_bays st "CPU",
              mods := get_netbox_modules st "CPU", st := st, trace := [], errs := [],
              crashed := false }).crashed } := by
      unfold do_netbox_cpus
      simp only [hcond, Bool.false_eq_true, if_false]
    rw [hrun]
    obtain ⟨hb, hm, added, ht, ha⟩ := cpuFold_frame catalog cpus
      { bays := get_netbox_module_bays st "CPU", mods := get_netbox_modules st "CPU",
        st := st, trace := [], errs := [], crashed := false }
    refine ⟨fun op hop => ha op ?_, hb, hm⟩
    have hop2 : op ∈ (cpus.foldl (cpuStep catalog)
        { bays := get_netbox_module_bays st "CPU",
          mods := get_netbox_modules st "CPU", st := st, trace := [], errs := [],
          crashed := false }).trace := hop
    rw [ht] at hop2
    simpa using hop2

/-- Witness for C10 at the C2 scenario input: the emitted call is a module
create and the pre-existing non-matching module is still present. -/
theorem c10_cpu_reconciliation_witness :
    (∃ b t, InvOp.createModule 1 21 "" = InvOp.createModule b t "") ∧
    (do_netbox_cpus [{ product := "8888" }] c2_catalog c2_state).st.bays =
      c2_state.bays ∧
    ({ id := 10
       bay := { id := 1, name := "CPU 1" }
       typ := { id := 20, partNumber := "9999", model := "Old CPU", profile := "CPU" }
       serial := "" } : ModuleR) ∈
      (do_netbox_cpus [{ product := "8888" }] c2_catalog c2_state).st.modules := by
  have h := c10_cpu_reconciliation_create_only [{ product := "8888" }] c2_catalog c2_state
  exact ⟨h.1 (InvOp.createModule 1 21 "") (by decide), h.2.1, h.2.2 _ (by decide)⟩

/-! ## Claim C6 (amended) -/

theorem get_or_create_vlan_vid (vid : Nat) (st : NetState) :
    (get_or_create_vlan vid st).1.vid = vid := by
  unfold get_or_create_vlan
  cases hf : st.vlans.find? (fun v => v.vid == vid) with
  | none => rfl
  | some u =>
    have hp := List.find?_some hf
    simp only [beq_iff_eq] at hp
    simpa using hp

/-- C6 amended: with a local VLAN tag `v` present, the interface is reset —
update flagged, mode set to tagged, tagged set exactly one VLAN carrying
`v`, untagged cleared — exactly when the re-fetched remote interface is not
already in a tagged mode (Tagged or Tagged-All) with exactly that single
tagged VLAN; in the converged situation nothing is touched and no call is
made. -/
theorem c6_tagged_reset_characterization (nic : LocalNic) (iface0 : NbInterface)
    (st : NetState) (v : Nat) (hv : nic.vlan = some v) (h0 : v ≠ 0) :
    (¬ taggedConverged (refetched st iface0) v →
      (reset_vlan_on_interface nic iface0 st).1 = true ∧
      (reset_vlan_on_interface nic iface0 st).2.1.mode = some IfMode.tagged ∧
      (reset_vlan_on_interface nic iface0 st).2.1.taggedVlans.map (·.vid) = [v] ∧
      (reset_vlan_on_interface nic iface0 st).2.1.untaggedVlan = none) ∧
    (taggedConverged (refetched st iface0) v →
      reset_vlan_on_interface nic iface0 st = (false, refetched st iface0, st, [])) := by
  simp only [reset_vlan_on_interface, hv]
  set cur := refetched st iface0 with hcur
  by_cases hconv : taggedConverged cur v
  case pos =>
    obtain ⟨hmode, htv⟩ := hconv
    obtain ⟨w, hw, hwv⟩ : ∃ w, cur.taggedVlans = [w] ∧ w.vid = v := by
      cases htl : cur.taggedVlans with
      | nil => rw [htl] at htv; simp at htv
      | cons w rest =>
        rw [htl] at htv
        cases rest with
        | nil =>
          refine ⟨w, rfl, ?_⟩
          simpa using htv
        | cons w2 r2 => simp at htv
    have hcond :
        (v ≠ 0 && (cur.mode == none ||
          (cur.mode == some IfMode.access ||
            cur.taggedVlans.length ≠ 1 ||
            (match cur.taggedVlans with
              | w :: _ => w.vid ≠ v
              | [] => false)))) = false := by
      rcases hmode with hm | hm <;> simp [hm, hw, hwv]
    rw [hcond]
    simp only [Bool.false_eq_true, if_false]
    exact ⟨fun hno => absurd ⟨hmode, htv⟩ hno, fun _ => by trivial⟩
  case neg =>
    have hcond :
        (v ≠ 0 && (cur.mode == none ||
          (cur.mode == some IfMode.access ||
            cur.taggedVlans.length ≠ 1 ||
            (match cur.taggedVlans with
              | w :: _ => w.vid ≠ v
              | [] => false)))) = true := by
      simp only [taggedConverged, not_and_or] at hconv
      simp only [Bool.and_eq_true, Bool.or_eq_true, beq_iff_eq, decide_eq_true_eq,
        ne_eq]
      refine ⟨by simpa using h0, ?_⟩
      rcases hconv with hm | htv
      · cases hmm : cur.mode with
        | none => exact Or.inl rfl
        | some m =>
          cases m with
          | access => exact Or.inr (Or.inl (Or.inl rfl))
          | tagged => exact absurd (Or.inl hmm) hm
          | taggedAll => exact absurd (Or.inr hmm) hm
      · cases htl : cur.taggedVlans with
        | nil =>
          refine Or.inr (Or.inl (Or.inr ?_))
          simp [htl]
        | cons w rest =>
          cases rest with
          | nil =>
            refine Or.inr (Or.inr ?_)
            rw [htl] at htv
            simp only [List.map_cons, List.map_nil] at htv
            have hwv : ¬ w.vid = v := fun h => htv (by rw [h])
            simp [hwv]
          | cons w2 r2 =>
            refine Or.inr (Or.inl (Or.inr ?_))
            simp [htl]
    rw [hcond]
    simp only [if_true]
    refine ⟨fun _ => ⟨trivial, trivial, ?_, trivial⟩, fun hc => absurd hc hconv⟩
    simp [get_or_create_vlan_vid v st]

/-- Witness for C6 amended at the spec scenario: remote tagged set [50],
local VLAN 60: the interface is reset to mode tagged with tagged set
carrying vid 60. -/
theorem c6_tagged_reset_witness :
    (reset_vlan_on_interface c6_nic c6_iface50 c6_state50).1 = true ∧
    (reset_vlan_on_interface c6_nic c6_iface50 c6_state50).2.1.mode =
      some IfMode.tagged ∧
    (reset_vlan_on_interface c6_nic c6_iface50 c6_state50).2.1.taggedVlans.map
      (·.vid) = [60] ∧
    (reset_vlan_on_interface c6_nic c6_iface50 c6_state50).2.1.untaggedVlan =
      none :=
  (c6_tagged_reset_characterization c6_nic c6_iface50 c6_state50 60 rfl
    (by decide)).1 (by decide)

/-! ## Claim C7 -/

/-- C7: anycast non-starvation.  If records for the address exist and every
one of them is anycast and assigned to some other interface (none
unassigned, none assigned here), the engine performs exactly one call: the
creation of a new anycast record bound to this interface; every
pre-existing record is kept unchanged in the state. -/
theorem c7_anycast_non_starvation (ip : String) (ifaceId : Nat) (st : NetState)
    (hne : st.ips.filter (fun r => r.address == ip) ≠ [])
    (hall : ∀ r ∈ st.ips.filter (fun r => r.address == ip),
      r.role = some IpRole.anycast ∧ r.assignedTo ≠ none ∧
        r.assignedTo ≠ some ifaceId) :
    ∃ newRec : IpR,
      (create_or_update_netbox_ip_on_interface ip ifaceId st).2 =
        [NetOp.createIp newRec] ∧
      newRec.address = ip ∧ newRec.role = some IpRole.anycast ∧
      newRec.assignedTo = some ifaceId ∧
      (create_or_update_netbox_ip_on_interface ip ifaceId st).1.ips =
        st.ips ++ [newRec] := by
  cases hl : st.ips.filter (fun r => r.address == ip) with
  | nil => exact absurd hl hne
  | cons first rest =>
    have hfirstMem : first ∈ st.ips.filter (fun r => r.address == ip) := by
      rw [hl]
      exact List.mem_cons_self first rest
    obtain ⟨hrole, _, _⟩ := hall first hfirstMem
    have hroleB : (first.role == some IpRole.anycast) = true := by simp [hrole]
    have hun : (first :: rest).filter (fun r => r.assignedTo == none) = [] := by
      rw [List.filter_eq_nil_iff]
      intro r hr
      have hr2 := hall r (by rw [hl]; exact hr)
      simp only [beq_iff_eq]
      exact hr2.2.1
    have hah : (first :: rest).filter (fun r => r.assignedTo == some ifaceId) = [] := by
      rw [List.filter_eq_nil_iff]
      intro r hr
      have hr2 := hall r (by rw [hl]; exact hr)
      simp only [beq_iff_eq]
      exact hr2.2.2
    refine ⟨{ id := st.nextId, address := ip, role := some IpRole.anycast
              assignedTo := some ifaceId, tenant := none }, ?_, rfl, rfl, rfl, ?_⟩
    · simp only [create_or_update_netbox_ip_on_interface, hl, hroleB, if_true, hun,
        hah, List.isEmpty_nil]
    · simp only [create_or_update_netbox_ip_on_interface, hl, hroleB, if_true, hun,
        hah, List.isEmpty_nil]

/-- Witness for C7: two anycast copies assigned elsewhere; assigning the
address to interface 1 creates the third record instead of stealing one. -/
theorem c7_anycast_non_starvation_witness :
    ∃ newRec : IpR,
      (create_or_update_netbox_ip_on_interface "10.0.0.9/32" 1 c7_state).2 =
        [NetOp.createIp newRec] ∧
      newRec.address = "10.0.0.9/32" ∧ newRec.role = some IpRole.anycast ∧
      newRec.assignedTo = some 1 ∧
      (create_or_update_netbox_ip_on_interface "10.0.0.9/32" 1 c7_state).1.ips =
        c7_state.ips ++ [newRec] :=
  c7_anycast_non_starvation "10.0.0.9/32" 1 c7_state (by decide) (by decide)

/-! ## Claim C5 -/

theorem eraseP_id_eq_filter (i : Nat) (pool : List ModuleBay)
    (h : (pool.map (·.id)).Nodup) :
    pool.eraseP (fun b => b.id == i) = pool.filter fun b => !(b.id == i) := by
  induction pool with
  | nil => rfl
  | cons b rest ih =>
    rw [List.map_cons, List.nodup_cons] at h
    rw [List.eraseP_cons, List.filter_cons]
    cases hb : (b.id == i) with
    | true =>
      simp only [cond_true, Bool.not_true, Bool.false_eq_true, if_false]
      symm
      rw [List.filter_eq_self]
      intro x hx
      have hxid : x.id ≠ i := fun hxi => h.1 (by
        rw [beq_iff_eq.mp hb, ← hxi]
        exact List.mem_map_of_mem (·.id) hx)
      simp [hxid]
    | false =>
      simp only [cond_false, Bool.not_false, if_true]
      rw [ih h.2]

theorem psuReserveBays_eq_filter (mods : List ModuleR) (serials : List String)
    (pool : List ModuleBay) (h : (pool.map (·.id)).Nodup) :
    psuReserveBays mods serials pool =
      pool.filter fun b =>
        !(mods.any fun m => serials.contains m.serial && b.id == m.bay.id) := by
  induction mods generalizing pool with
  | nil =>
    unfold psuReserveBays
    simp
  | cons m ms ih =>
    have hstep :
        (if serials.contains m.serial && pool.any (fun b => b.id == m.bay.id) then
          pool.eraseP fun b => b.id == m.bay.id
        else pool) =
        pool.filter fun b => !(serials.contains m.serial && b.id == m.bay.id) := by
      cases hc : serials.contains m.serial with
      | true =>
        cases hp : (pool.any fun b => b.id == m.bay.id) with
        | true =>
          rw [if_pos (by simp [hc, hp])]
          rw [eraseP_id_eq_filter m.bay.id pool h]
          apply List.filter_congr
          intro x _
          simp
        | false =>
          rw [if_neg (by simp [hc, hp])]
          symm
          rw [List.filter_eq_self]
          intro x hx
          rw [List.any_eq_false] at hp
          simp [hc, hp x hx]
      | false =>
        rw [if_neg (by simp [hc])]
        symm
        rw [List.filter_eq_self]
        intro x _
        simp [hc]
    have hfold : psuReserveBays (m :: ms) serials pool =
        psuReserveBays ms serials
          (pool.filter fun b => !(serials.contains m.serial && b.id == m.bay.id)) := by
      unfold psuReserveBays
      rw [List.foldl_cons, hstep]
    rw [hfold]
    have hnodup2 :
        (((pool.filter fun b => !(serials.contains m.serial && b.id == m.bay.id)).map
          (·.id)).Nodup) := by
      apply List.Nodup.sublist _ h
      exact List.Sublist.map _ (List.filter_sublist pool)
    rw [ih _ hnodup2, List.filter_filter]
    apply List.filter_congr
    intro x _
    simp only [List.any_cons, Bool.not_or, Bool.and_comm]

theorem psuFold_spec (catalog : List ModuleTypeR) (mods : List ModuleR)
    (psus : List PsuFact) (acc : PsuAcc) :
    ∃ added,
      (psus.foldl (psuStep catalog mods) acc).trace = acc.trace ++ added ∧
      (∀ op ∈ added, ∃ b t s, op = InvOp.createModule b t s) ∧
      (∀ b t s, InvOp.createModule b t s ∈ added →
        ∃ psu ∈ psus, s = psu.serial ∧
          (mods.any fun m => m.serial == psu.serial) = false) ∧
      ∃ k, added.filterMap createdBayId = (acc.pool.map (·.id)).take k := by
  induction psus generalizing acc with
  | nil =>
    exact ⟨[], (List.append_nil _).symm, by simp, by simp, 0, by simp⟩
  | cons psu ps ih =>
    rw [List.foldl_cons]
    cases ht : get_netbox_module_type catalog psu.product "" with
    | none =>
      have hstep : psuStep catalog mods acc psu =
          { acc with errs := acc.errs ++ [InvErr.typeMissing] } := by
        unfold psuStep
        rw [ht]
      rw [hstep]
      obtain ⟨added, h1, h2, h3, k, h4⟩ := ih
        { acc with errs := acc.errs ++ [InvErr.typeMissing] }
      exact ⟨added, h1, h2,
        fun b t s hmem =>
          (h3 b t s hmem).elim fun p hp => ⟨p, List.mem_cons_of_mem psu hp.1, hp.2⟩,
        k, h4⟩
    | some t =>
      cases hex : (mods.any fun m => m.serial == psu.serial) with
      | true =>
        have hstep : psuStep catalog mods acc psu = acc := by
          unfold psuStep
          rw [ht]
          simp only [hex, if_true]
        rw [hstep]
        obtain ⟨added, h1, h2, h3, k, h4⟩ := ih acc
        exact ⟨added, h1, h2,
          fun b t s hmem =>
            (h3 b t s hmem).elim fun p hp => ⟨p, List.mem_cons_of_mem psu hp.1, hp.2⟩,
          k, h4⟩
      | false =>
        cases hpool : acc.pool with
        | nil =>
          have hstep : psuStep catalog mods acc psu =
              { acc with errs := acc.errs ++ [InvErr.noFreeBay] } := by
            unfold psuStep
            rw [ht]
            simp only [hex, Bool.false_eq_true, if_false]
            rw [hpool]
          rw [hstep]
          obtain ⟨added, h1, h2, h3, k, h4⟩ := ih
            { acc with errs := acc.errs ++ [InvErr.noFreeBay] }
          exact ⟨added, h1, h2,
            fun b t s hmem =>
              (h3 b t s hmem).elim fun p hp =>
                ⟨p, List.mem_cons_of_mem psu hp.1, hp.2⟩,
            k, by simpa [hpool] using h4⟩
        | cons bay restPool =>
          have hstep : psuStep catalog mods acc psu =
              { pool := restPool, st := addModule acc.st bay t psu.serial
                trace := acc.trace ++ [InvOp.createModule bay.id t.id psu.serial]
                errs := acc.errs } := by
            unfold psuStep
            rw [ht]
            simp only [hex, Bool.false_eq_true, if_false]
            rw [hpool]
          rw [hstep]
          obtain ⟨added, h1, h2, h3, k, h4⟩ := ih
            { pool := restPool, st := addModule acc.st bay t psu.serial
              trace := acc.trace ++ [InvOp.createModule bay.id t.id psu.serial]
              errs := acc.errs }
          refine ⟨InvOp.createModule bay.id t.id psu.serial :: added, ?_, ?_, ?_,
            k + 1, ?_⟩
          · rw [h1]
            simp
          · intro op hop
            rcases List.mem_cons.mp hop with hop | hop
            · exact ⟨bay.id, t.id, psu.serial, hop⟩
            · exact h2 op hop
          · intro b t2 s hmem
            rcases List.mem_cons.mp hmem with hmem | hmem
            · have hs : s = psu.serial := by injection hmem
              exact ⟨psu, List.mem_cons_self psu ps, hs, hex⟩
            · exact (h3 b t2 s hmem).elim fun p hp =>
                ⟨p, List.mem_cons_of_mem psu hp.1, hp.2⟩
          · have h4b : List.filterMap createdBayId added =
                List.take k (restPool.map (·.id)) := by simpa using h4
            simp only [List.filterMap_cons, createdBayId]
            rw [h4b]
            simp [List.take_succ_cons]

/-- C5: PSU three-phase ordering.  The trace of `do_netbox_psus` is exactly
the deletions of every remote PSU module whose serial is absent from the
local serial set, in fetch order, followed by create calls only; every
create is for a local PSU that has no matching-serial remote module; and
the bays used by the creates are, in order, a prefix of the free pool
obtained by removing from the PSU bays every bay occupied by a
matching-serial module. -/
theorem c5_psu_three_phase_pipeline (psus : List PsuFact)
    (catalog : List ModuleTypeR) (st : InvState)
    (hbays : ((get_netbox_module_bays st "PSU").map (·.id)).Nodup) :
    ∃ rest,
      (do_netbox_psus psus catalog st).trace =
        (stale_psu_modules psus st).map (fun m => InvOp.deleteModule m.id) ++ rest ∧
      (∀ op ∈ rest, ∃ b t s, op = InvOp.createModule b t s) ∧
      (∀ b t s, InvOp.createModule b t s ∈ rest →
        ∃ psu ∈ psus, s = psu.serial ∧
          ∀ m ∈ get_netbox_modules st "Power supply", m.serial ≠ psu.serial) ∧
      ∃ k, rest.filterMap createdBayId =
        (((get_netbox_module_bays st "PSU").filter fun b =>
            !((get_netbox_modules st "Power supply").any fun m =>
              (local_psu_serials psus).contains m.serial && b.id == m.bay.id)).map
          (·.id)).take k := by
  obtain ⟨added, h1, h2, h3, k, h4⟩ := psuFold_spec catalog
    (get_netbox_modules st "Power supply") psus
    { pool := psuReserveBays (get_netbox_modules st "Power supply")
        (local_psu_serials psus) (get_netbox_module_bays st "PSU")
      st := (stale_psu_modules psus st).foldl (fun s m => (removeModule s m.id).1) st
      trace := [], errs := [] }
  refine ⟨added, ?_, h2, ?_, k, ?_⟩
  · show (do_netbox_psus psus catalog st).trace = _
    unfold do_netbox_psus
    simp only []
    rw [h1]
    simp
  · intro b t s hmem
    obtain ⟨psu, hpsu, hs, hany⟩ := h3 b t s hmem
    refine ⟨psu, hpsu, hs, ?_⟩
    intro m hm
    rw [List.any_eq_false] at hany
    have := hany m hm
    simpa using this
  · rw [h4]
    rw [psuReserveBays_eq_filter _ _ _ hbays]

/-- Witness for C5 at the scenario above: the stale module is deleted
first, then a single PSU create happens in the remaining free bay. -/
theorem c5_psu_three_phase_witness :
    ∃ rest,
      (do_netbox_psus c5_psus c5_catalog c5_state).trace =
        (stale_psu_modules c5_psus c5_state).map
          (fun m => InvOp.deleteModule m.id) ++ rest ∧
      (∀ op ∈ rest, ∃ b t s, op = InvOp.createModule b t s) ∧
      (∀ b t s, InvOp.createModule b t s ∈ rest →
        ∃ psu ∈ c5_psus, s = psu.serial ∧
          ∀ m ∈ get_netbox_modules c5_state "Power supply", m.serial ≠ psu.serial) ∧
      ∃ k, rest.filterMap createdBayId =
        (((get_netbox_module_bays c5_state "PSU").filter fun b =>
            !((get_netbox_modules c5_state "Power supply").any fun m =>
              (local_psu_serials c5_psus).contains m.serial && b.id == m.bay.id)).map
          (·.id)).take k :=
  c5_psu_three_phase_pipeline c5_psus c5_catalog c5_state (by decide)

/-! ## Claim C8 (amended) -/

theorem noIpDelete_nil : noIpDelete [] := by
  intro op hop
  cases hop

theorem noIpDelete_append {a b : List NetOp} (ha : noIpDelete a)
    (hb : noIpDelete b) : noIpDelete (a ++ b) := by
  intro op hop i
  rcases List.mem_append.mp hop with h | h
  · exact ha op h i
  · exact hb op h i

theorem noIpDelete_single {op : NetOp} (h : ∀ i, op ≠ NetOp.deleteIp i) :
    noIpDelete [op] := by
  intro o ho i
  rw [List.mem_singleton] at ho
  rw [ho]
  exact h i

/-- Generic fold lemma: a fold whose step only appends IP-delete-free
operations to the second component keeps the trace IP-delete-free. -/
theorem foldl_noIpDelete {α β : Type} (f : β × List NetOp → α → β × List NetOp)
    (hf : ∀ p a, ∃ added, (f p a).2 = p.2 ++ added ∧ noIpDelete added)
    (l : List α) (p0 : β × List NetOp) (h0 : noIpDelete p0.2) :
    noIpDelete (l.foldl f p0).2 := by
  induction l generalizing p0 with
  | nil => exact h0
  | cons a rest ih =>
    rw [List.foldl_cons]
    apply ih
    obtain ⟨added, he, hadd⟩ := hf p0 a
    rw [he]
    exact noIpDelete_append h0 hadd

/-- Generic fold lemma: such a fold only grows the trace, so membership is
preserved. -/
theorem foldl_trace_mono {α β : Type} (f : β × List NetOp → α → β × List NetOp)
    (hf : ∀ p a, ∃ added, (f p a).2 = p.2 ++ added)
    (l : List α) (p0 : β × List NetOp) {op : NetOp} (h0 : op ∈ p0.2) :
    op ∈ (l.foldl f p0).2 := by
  induction l generalizing p0 with
  | nil => exact h0
  | cons a rest ih =>
    rw [List.foldl_cons]
    apply ih
    obtain ⟨added, he⟩ := hf p0 a
    rw [he]
    exact List.mem_append_left _ h0

theorem unassignStaleStep_appends (locals : List String)
    (p : NetState × List NetOp) (r : IpR) :
    ∃ added, (unassignStaleStep locals p r).2 = p.2 ++ added ∧ noIpDelete added := by
  unfold unassignStaleStep
  split
  · exact ⟨[NetOp.saveIp { r with assignedTo := none }], rfl,
      noIpDelete_single fun i => by simp⟩
  · exact ⟨[], (List.append_nil _).symm, noIpDelete_nil⟩

/-- Phase B emits the unassign call for every fetched record whose address
is not local. -/
theorem phaseB_emits (locals : List String) (l : List IpR) :
    ∀ (p0 : NetState × List NetOp) (r : IpR), r ∈ l →
    locals.contains r.address = false →
    NetOp.saveIp { r with assignedTo := none } ∈
      (l.foldl (unassignStaleStep locals) p0).2 := by
  induction l with
  | nil =>
    intro p0 r hr
    cases hr
  | cons x rest ih =>
    intro p0 r hr haddr
    rw [List.foldl_cons]
    rcases List.mem_cons.mp hr with hx | hx
    · apply foldl_trace_mono (unassignStaleStep locals)
        (fun p a => (unassignStaleStep_appends locals p a).elim
          fun added h => ⟨added, h.1⟩)
      rw [← hx]
      unfold unassignStaleStep
      rw [if_pos (by rw [haddr]; rfl)]
      exact List.mem_append_right _ (List.mem_singleton.mpr rfl)
    · exact ih _ r hx haddr

theorem deleteUnknownStep_keep (names : List String)
    (p0 : List NbInterface × NetState × List NetOp) (i : NbInterface)
    (hc : names.contains i.name = true) :
    deleteUnknownStep names p0 i = (p0.1 ++ [i], p0.2.1, p0.2.2) := by
  unfold deleteUnknownStep
  rw [show nic_identifier_nb i = i.name from rfl, hc]
  simp

theorem deleteUnknownStep_del (names : List String)
    (p0 : List NbInterface × NetState × List NetOp) (i : NbInterface)
    (hc : names.contains i.name = false) :
    deleteUnknownStep names p0 i =
      (p0.1, deleteInterfaceCascade p0.2.1 i.id,
        p0.2.2 ++ [NetOp.deleteInterface i.id]) := by
  unfold deleteUnknownStep
  rw [show nic_identifier_nb i = i.name from rfl, hc]
  simp

/-- Phase A of the network run keeps exactly the interfaces whose identity
key is present locally, appended to the accumulator. -/
theorem phaseA_survivors (names : List String) (l : List NbInterface) :
    ∀ (p0 : List NbInterface × NetState × List NetOp),
    (l.foldl (deleteUnknownStep names) p0).1 =
      p0.1 ++ l.filter fun i => names.contains i.name := by
  induction l with
  | nil =>
    intro p0
    simp
  | cons i rest ih =>
    intro p0
    rw [List.foldl_cons, List.filter_cons]
    cases hc : names.contains i.name with
    | true =>
      rw [deleteUnknownStep_keep names p0 i hc, ih]
      simp
    | false =>
      rw [deleteUnknownStep_del names p0 i hc, ih]
      simp

/-- Phase A preserves, unchanged, every IP record that is not assigned to a
deleted interface. -/
theorem phaseA_ips (names : List String) (l : List NbInterface) :
    ∀ (p0 : List NbInterface × NetState × List NetOp) (R : IpR),
    R ∈ p0.2.1.ips →
    (∀ i ∈ l, names.contains i.name = false → R.assignedTo ≠ some i.id) →
    R ∈ (l.foldl (deleteUnknownStep names) p0).2.1.ips := by
  induction l with
  | nil =>
    intro p0 R hmem _
    exact hmem
  | cons i rest ih =>
    intro p0 R hmem hsafe
    rw [List.foldl_cons]
    refine ih _ R ?_ fun j hj hcj => hsafe j (List.mem_cons_of_mem i hj) hcj
    cases hc : names.contains i.name with
    | true =>
      rw [deleteUnknownStep_keep names p0 i hc]
      exact hmem
    | false =>
      rw [deleteUnknownStep_del names p0 i hc]
      show R ∈ (deleteInterfaceCascade p0.2.1 i.id).ips
      unfold deleteInterfaceCascade
      apply List.mem_filter.mpr
      refine ⟨hmem, ?_⟩
      have hne := hsafe i (List.mem_cons_self i rest) hc
      simp [hne]

/-- Generic fold lemma: a fold whose step appends IP-delete-free calls
appends an IP-delete-free block in total. -/
theorem foldl_appends2 {α β : Type} (f : β × List NetOp → α → β × List NetOp)
    (hf : ∀ p a, ∃ d, (f p a).2 = p.2 ++ d ∧ noIpDelete d) (l : List α) :
    ∀ p0, ∃ D, (l.foldl f p0).2 = p0.2 ++ D ∧ noIpDelete D := by
  induction l with
  | nil => exact fun p0 => ⟨[], (List.append_nil _).symm, noIpDelete_nil⟩
  | cons a rest ih =>
    intro p0
    rw [List.foldl_cons]
    obtain ⟨d, hd, hnd⟩ := hf p0 a
    obtain ⟨D, hD, hnD⟩ := ih (f p0 a)
    exact ⟨d ++ D, by rw [hD, hd, List.append_assoc], noIpDelete_append hnd hnD⟩

theorem get_or_create_vlan_noIpDelete (vid : Nat) (st : NetState) :
    noIpDelete (get_or_create_vlan vid st).2.2 := by
  unfold get_or_create_vlan
  cases st.vlans.find? fun v => v.vid == vid with
  | some u => exact noIpDelete_nil
  | none => exact noIpDelete_single fun i => by simp

theorem reset_vlan_noIpDelete (nic : LocalNic) (iface0 : NbInterface)
    (st : NetState) :
    noIpDelete (reset_vlan_on_interface nic iface0 st).2.2.2 := by
  simp only [reset_vlan_on_interface]
  repeat' split
  all_goals
    first
      | exact noIpDelete_nil
      | exact get_or_create_vlan_noIpDelete _ _

theorem macCleanStep_appends (macs : List String) (p : NetState × List NetOp)
    (nm : MacR) :
    ∃ added, (macCleanStep macs p nm).2 = p.2 ++ added ∧ noIpDelete added := by
  unfold macCleanStep
  split
  · exact ⟨[NetOp.deleteMac nm.id], rfl, noIpDelete_single fun i => by simp⟩
  · exact ⟨[], (List.append_nil _).symm, noIpDelete_nil⟩

theorem macAddStep_appends (nb_macs : List MacR) (ifaceId : Nat)
    (p : NetState × List NetOp) (mac : String) :
    ∃ added, (macAddStep nb_macs ifaceId p mac).2 = p.2 ++ added ∧
      noIpDelete added := by
  unfold macAddStep
  split
  · exact ⟨[NetOp.createMac _], rfl, noIpDelete_single fun i => by simp⟩
  · exact ⟨[], (List.append_nil _).symm, noIpDelete_nil⟩

theorem update_interface_macs_noIpDelete (ifaceId : Nat) (macs : List String)
    (st : NetState) : noIpDelete (update_interface_macs ifaceId macs st).2 := by
  simp only [update_interface_macs]
  apply foldl_noIpDelete _ (macAddStep_appends _ ifaceId)
  apply foldl_noIpDelete _ (macCleanStep_appends macs)
  exact noIpDelete_nil

theorem create_netbox_nic_noIpDelete (nic : LocalNic) (st : NetState) :
    noIpDelete (create_netbox_nic nic st).2.2 := by
  simp only [create_netbox_nic]
  repeat' split
  all_goals
    repeat
      first
        | apply noIpDelete_append
        | exact get_or_create_vlan_noIpDelete _ _
        | exact noIpDelete_nil
        | exact noIpDelete_single fun i => by simp

theorem ip_on_interface_noIpDelete (ip : String) (ifaceId : Nat) (st : NetState) :
    noIpDelete (create_or_update_netbox_ip_on_interface ip ifaceId st).2 := by
  simp only [create_or_update_netbox_ip_on_interface]
  repeat' split
  all_goals
    first
      | exact noIpDelete_nil
      | exact noIpDelete_single fun i => by simp

theorem ipSyncStep_appends (ifaceId : Nat) (p : NetState × List NetOp)
    (ip : String) :
    ∃ added, (ipSyncStep ifaceId p ip).2 = p.2 ++ added ∧ noIpDelete added :=
  ⟨(create_or_update_netbox_ip_on_interface ip ifaceId p.1).2, rfl,
    ip_on_interface_noIpDelete ip ifaceId p.1⟩

/-- Every stage of the per-NIC body only appends IP-delete-free calls. -/
theorem stage_vlan_appends (nic : LocalNic) (a : NicAcc) :
    ∃ d, (stage_vlan nic a).ops = a.ops ++ d ∧ noIpDelete d := by
  unfold stage_vlan
  split
  · exact ⟨[], (List.append_nil _).symm, noIpDelete_nil⟩
  · exact ⟨_, rfl, reset_vlan_noIpDelete _ _ _⟩

theorem stage_name_ops (nic : LocalNic) (a : NicAcc) :
    (stage_name nic a).ops = a.ops := by
  simp only [ stage_name]
  repeat' split
  all_goals rfl

theorem stage_name_appends (nic : LocalNic) (a : NicAcc) :
    ∃ d, (stage_name nic a).ops = a.ops ++ d ∧ noIpDelete d :=
  ⟨[], by rw [ stage_name_ops, List.append_nil], noIpDelete_nil⟩

theorem stage_macs_appends (nic : LocalNic) (a : NicAcc) :
    ∃ d, (stage_macs nic a).ops = a.ops ++ d ∧ noIpDelete d := by
  unfold stage_macs
  repeat' split
  all_goals
    first
      | exact ⟨[], (List.append_nil _).symm, noIpDelete_nil⟩
      | exact ⟨_, rfl, update_interface_macs_noIpDelete _ _ _⟩

theorem stage_primary_mac_ops (nic : LocalNic) (a : NicAcc) :
    (stage_primary_mac nic a).ops = a.ops := by
  simp only [ stage_primary_mac]
  repeat' split
  all_goals rfl

theorem stage_primary_mac_appends (nic : LocalNic) (a : NicAcc) :
    ∃ d, (stage_primary_mac nic a).ops = a.ops ++ d ∧ noIpDelete d :=
  ⟨[], by rw [ stage_primary_mac_ops, List.append_nil], noIpDelete_nil⟩

theorem stage_mtu_ops (nic : LocalNic) (a : NicAcc) :
    (stage_mtu nic a).ops = a.ops := by
  simp only [ stage_mtu]
  repeat' split
  all_goals rfl

theorem stage_mtu_appends (nic : LocalNic) (a : NicAcc) :
    ∃ d, (stage_mtu nic a).ops = a.ops ++ d ∧ noIpDelete d :=
  ⟨[], by rw [ stage_mtu_ops, List.append_nil], noIpDelete_nil⟩

theorem stage_duplex_speed_ops (nic : LocalNic) (a : NicAcc) :
    (stage_duplex_speed nic a).ops = a.ops := by
  simp only [ stage_duplex_speed]
  repeat' split
  all_goals rfl

theorem stage_duplex_speed_appends (nic : LocalNic) (a : NicAcc) :
    ∃ d, (stage_duplex_speed nic a).ops = a.ops ++ d ∧ noIpDelete d :=
  ⟨[], by rw [ stage_duplex_speed_ops, List.append_nil], noIpDelete_nil⟩

theorem stage_type_ops (nic : LocalNic) (a : NicAcc) :
    (stage_type nic a).ops = a.ops := by
  simp only [ stage_type]
  repeat' split
  all_goals rfl

theorem stage_type_appends (nic : LocalNic) (a : NicAcc) :
    ∃ d, (stage_type nic a).ops = a.ops ++ d ∧ noIpDelete d :=
  ⟨[], by rw [ stage_type_ops, List.append_nil], noIpDelete_nil⟩

theorem stage_lag_ops (allNics : List LocalNic) (nm : String) (a : NicAcc) :
    (stage_lag allNics nm a).ops = a.ops := by
  simp only [ stage_lag]
  repeat' split
  all_goals rfl

theorem stage_lag_appends (allNics : List LocalNic) (nm : String) (a : NicAcc) :
    ∃ d, (stage_lag allNics nm a).ops = a.ops ++ d ∧ noIpDelete d :=
  ⟨[], by rw [ stage_lag_ops, List.append_nil], noIpDelete_nil⟩

theorem stage_ips_appends (nic : LocalNic) (a : NicAcc) :
    ∃ d, (stage_ips nic a).ops = a.ops ++ d ∧ noIpDelete d := by
  unfold stage_ips
  split
  · exact ⟨[], (List.append_nil _).symm, noIpDelete_nil⟩
  · obtain ⟨D, hD, hnD⟩ := foldl_appends2 _ (ipSyncStep_appends a.iface.id)
      nic.ipAddrs (a.st, [])
    exact ⟨(nic.ipAddrs.foldl (ipSyncStep a.iface.id) (a.st, [])).2, rfl, by
      rw [hD]
      simpa using hnD⟩

theorem stage_save_appends (a : NicAcc) :
    ∃ d, (stage_save a).ops = a.ops ++ d ∧ noIpDelete d := by
  unfold stage_save
  repeat' split
  all_goals
    first
      | exact ⟨[], (List.append_nil _).symm, noIpDelete_nil⟩
      | exact ⟨[NetOp.saveInterface _], rfl, noIpDelete_single fun i => by simp⟩

theorem stage_find_or_create_noIpDelete (nic : LocalNic) (st : NetState) :
    noIpDelete (stage_find_or_create nic st).ops := by
  unfold stage_find_or_create
  split
  · exact noIpDelete_nil
  · exact create_netbox_nic_noIpDelete _ _

/-- Chain two appends facts. -/
theorem noIpDelete_of_appends {x y : List NetOp}
    (h : ∃ d, y = x ++ d ∧ noIpDelete d) (hx : noIpDelete x) : noIpDelete y := by
  obtain ⟨d, hd, hnd⟩ := h
  rw [hd]
  exact noIpDelete_append hx hnd

theorem perNicStep_noIpDelete (allNics : List LocalNic) (acc : NetAcc)
    (nic : LocalNic) (h : noIpDelete acc.trace) :
    noIpDelete (perNicStep allNics acc nic).trace := by
  unfold perNicStep
  split
  · exact h
  · show noIpDelete (acc.trace ++ _)
    apply noIpDelete_append h
    apply noIpDelete_of_appends (stage_save_appends _)
    apply noIpDelete_of_appends (stage_ips_appends _ _)
    apply noIpDelete_of_appends (stage_lag_appends _ _ _)
    apply noIpDelete_of_appends (stage_type_appends _ _)
    apply noIpDelete_of_appends (stage_duplex_speed_appends _ _)
    apply noIpDelete_of_appends (stage_mtu_appends _ _)
    apply noIpDelete_of_appends (stage_primary_mac_appends _ _)
    apply noIpDelete_of_appends (stage_macs_appends _ _)
    apply noIpDelete_of_appends (stage_name_appends _ _)
    apply noIpDelete_of_appends (stage_vlan_appends _ _)
    exact stage_find_or_create_noIpDelete _ _

theorem perNicFold_noIpDelete (allNics nics : List LocalNic) (acc : NetAcc)
    (h : noIpDelete acc.trace) :
    noIpDelete (nics.foldl (perNicStep allNics) acc).trace := by
  induction nics generalizing acc with
  | nil => exact h
  | cons n rest ih => exact ih _ (perNicStep_noIpDelete allNics acc n h)

/-- Generic fold lemma for accumulators with the trace in the middle
component. -/
theorem foldl_appends3 {α β γ : Type} (f : β × List NetOp × γ → α → β × List NetOp × γ)
    (hf : ∀ p a, ∃ d, (f p a).2.1 = p.2.1 ++ d ∧ noIpDelete d) (l : List α) :
    ∀ p0, ∃ D, (l.foldl f p0).2.1 = p0.2.1 ++ D ∧ noIpDelete D := by
  induction l with
  | nil => exact fun p0 => ⟨[], (List.append_nil _).symm, noIpDelete_nil⟩
  | cons a rest ih =>
    intro p0
    rw [List.foldl_cons]
    obtain ⟨d, hd, hnd⟩ := hf p0 a
    obtain ⟨D, hD, hnD⟩ := ih (f p0 a)
    exact ⟨d ++ D, by rw [hD, hd, List.append_assoc], noIpDelete_append hnd hnD⟩

/-- Generic fold lemma for accumulators with the trace in the last
component. -/
theorem foldl_appends_last {α β γ : Type} (f : γ × β × List NetOp → α → γ × β × List NetOp)
    (hf : ∀ p a, ∃ d, (f p a).2.2 = p.2.2 ++ d ∧ noIpDelete d) (l : List α) :
    ∀ p0, ∃ D, (l.foldl f p0).2.2 = p0.2.2 ++ D ∧ noIpDelete D := by
  induction l with
  | nil => exact fun p0 => ⟨[], (List.append_nil _).symm, noIpDelete_nil⟩
  | cons a rest ih =>
    intro p0
    rw [List.foldl_cons]
    obtain ⟨d, hd, hnd⟩ := hf p0 a
    obtain ⟨D, hD, hnD⟩ := ih (f p0 a)
    exact ⟨d ++ D, by rw [hD, hd, List.append_assoc], noIpDelete_append hnd hnD⟩

theorem bondSlaveStep_appends (b : NbInterface) (q : NetState × List NetOp × Bool)
    (s : LocalNic) :
    ∃ d, (bondSlaveStep b q s).2.1 = q.2.1 ++ d ∧ noIpDelete d := by
  simp only [bondSlaveStep]
  repeat' split
  all_goals
    first
      | exact ⟨[], (List.append_nil _).symm, noIpDelete_nil⟩
      | exact ⟨[NetOp.saveInterface _], rfl, noIpDelete_single fun i => by simp⟩

theorem bondStep_appends (nics : List LocalNic) (p : NetState × List NetOp × Bool)
    (nic : LocalNic) :
    ∃ d, (bondStep nics p nic).2.1 = p.2.1 ++ d ∧ noIpDelete d := by
  unfold bondStep
  repeat' split
  all_goals
    first
      | exact ⟨[], (List.append_nil _).symm, noIpDelete_nil⟩
      | exact foldl_appends3 _ (bondSlaveStep_appends _) _ _

theorem bridgeSlaveStep_appends (b : NbInterface) (q : NetState × List NetOp × Bool)
    (s : LocalNic) :
    ∃ d, (bridgeSlaveStep b q s).2.1 = q.2.1 ++ d ∧ noIpDelete d := by
  simp only [bridgeSlaveStep]
  repeat' split
  all_goals
    first
      | exact ⟨[], (List.append_nil _).symm, noIpDelete_nil⟩
      | exact ⟨[NetOp.saveInterface _], rfl, noIpDelete_single fun i => by simp⟩

theorem bridgeStep_appends (nics : List LocalNic) (p : NetState × List NetOp × Bool)
    (nic : LocalNic) :
    ∃ d, (bridgeStep nics p nic).2.1 = p.2.1 ++ d ∧ noIpDelete d := by
  unfold bridgeStep
  repeat' split
  all_goals
    first
      | exact ⟨[], (List.append_nil _).symm, noIpDelete_nil⟩
      | exact foldl_appends3 _ (bridgeSlaveStep_appends _) _ _

theorem set_bonding_noIpDelete (nics : List LocalNic) (st : NetState) :
    noIpDelete (set_bonding_interfaces nics st).2.1 := by
  unfold set_bonding_interfaces
  obtain ⟨D, hD, hnD⟩ := foldl_appends3 _ (bondStep_appends nics) _ (st, [], false)
  rw [hD]
  simpa using hnD

theorem set_bridge_noIpDelete (nics : List LocalNic) (st : NetState) :
    noIpDelete (set_bridge_interfaces nics st).2.1 := by
  unfold set_bridge_interfaces
  obtain ⟨D, hD, hnD⟩ := foldl_appends3 _ (bridgeStep_appends nics) _ (st, [], false)
  rw [hD]
  simpa using hnD

theorem deleteUnknownStep_appendsTrace (names : List String)
    (p : List NbInterface × NetState × List NetOp) (i : NbInterface) :
    ∃ d, (deleteUnknownStep names p i).2.2 = p.2.2 ++ d ∧ noIpDelete d := by
  unfold deleteUnknownStep
  split
  · exact ⟨[NetOp.deleteInterface i.id], rfl, noIpDelete_single fun j => by simp⟩
  · exact ⟨[], (List.append_nil _).symm, noIpDelete_nil⟩


/-- Two interfaces of a list with pairwise-distinct ids and the same id are
the same record. -/
theorem iface_eq_of_id_eq {l : List NbInterface}
    (h : (l.map fun i => i.id).Nodup) {i I : NbInterface}
    (hi : i ∈ l) (hI : I ∈ l) (hid : i.id = I.id) : i = I :=
  List.inj_on_of_nodup_map h hi hI hid

/-- The trace of a full network run never contains an IP-address delete. -/
theorem network_run_noIpDelete (nics : List LocalNic) (st : NetState) :
    noIpDelete (create_or_update_netbox_network_cards nics st).trace := by
  simp only [create_or_update_netbox_network_cards]
  set names := nics.map nic_identifier_local with hnames
  set pA := st.interfaces.foldl (deleteUnknownStep names) ([], st, []) with hpA
  set allLocal := (nics.map fun n => n.ipAddrs).flatten with hallLocal
  have hA : noIpDelete pA.2.2 := by
    rw [hpA]
    obtain ⟨D, hD, hnD⟩ := foldl_appends_last _
      (deleteUnknownStep_appendsTrace names) st.interfaces ([], st, [])
    rw [hD]
    simpa using hnD
  set pB := if pA.1.length ≠ 0 then
      (pA.2.1.ips.filter fun r =>
        match r.assignedTo with
        | some j => (pA.1.map fun i => i.id).contains j
        | none => false).foldl (unassignStaleStep allLocal) (pA.2.1, [])
    else (pA.2.1, []) with hpB
  have hB : noIpDelete pB.2 := by
    rw [hpB]
    split
    · exact foldl_noIpDelete _ (unassignStaleStep_appends allLocal) _ _
        noIpDelete_nil
    · exact noIpDelete_nil
  set accC := nics.foldl (perNicStep nics)
    { st := pB.1, trace := [], crashed := false } with haccC
  have hC : noIpDelete accC.trace := by
    rw [haccC]
    exact perNicFold_noIpDelete nics nics _ noIpDelete_nil
  set d := set_bonding_interfaces nics accC.st with hd
  have hD : noIpDelete d.2.1 := by
    rw [hd]
    exact set_bonding_noIpDelete nics accC.st
  set e := set_bridge_interfaces nics d.1 with he
  have hE : noIpDelete e.2.1 := by
    rw [he]
    exact set_bridge_noIpDelete nics d.1
  repeat' split
  · exact noIpDelete_append (noIpDelete_append hA hB) hC
  · exact noIpDelete_append (noIpDelete_append hA hB) (noIpDelete_append hC hD)
  · exact noIpDelete_append (noIpDelete_append hA hB)
      (noIpDelete_append (noIpDelete_append hC hD) hE)

/-- Every stale IP record bound to a surviving interface gets its unassign
save call somewhere in the full network-run trace. -/
theorem network_run_unassigns (nics : List LocalNic) (st : NetState)
    (R : IpR) (I : NbInterface)
    (hnodup : (st.interfaces.map fun i => i.id).Nodup)
    (hR : R ∈ st.ips) (hass : R.assignedTo = some I.id)
    (hI : I ∈ st.interfaces)
    (hlocal : (nics.map nic_identifier_local).contains I.name = true)
    (hstale : ((nics.map fun n => n.ipAddrs).flatten).contains R.address = false) :
    NetOp.saveIp { R with assignedTo := none } ∈
      (create_or_update_netbox_network_cards nics st).trace := by
  simp only [create_or_update_netbox_network_cards]
  set names := nics.map nic_identifier_local with hnames
  set pA := st.interfaces.foldl (deleteUnknownStep names) ([], st, []) with hpA
  set allLocal := (nics.map fun n => n.ipAddrs).flatten with hallLocal
  have hsurv : pA.1 = st.interfaces.filter fun i => names.contains i.name := by
    rw [hpA, phaseA_survivors]
    rfl
  have hImem : I ∈ pA.1 := by
    rw [hsurv]
    exact List.mem_filter.mpr ⟨hI, hlocal⟩
  have hlen : pA.1.length ≠ 0 := by
    intro h0
    rw [List.length_eq_zero] at h0
    rw [h0] at hImem
    cases hImem
  have hsafe : ∀ i ∈ st.interfaces, names.contains i.name = false →
      R.assignedTo ≠ some i.id := by
    intro i hi hci hcontra
    rw [hass] at hcontra
    have hid : i.id = I.id := (Option.some_inj.mp hcontra).symm
    have hieq : i = I := iface_eq_of_id_eq hnodup hi hI hid
    rw [hieq, hlocal] at hci
    cases hci
  have hRA : R ∈ pA.2.1.ips := by
    rw [hpA]
    exact phaseA_ips names st.interfaces ([], st, []) R hR hsafe
  rw [if_pos hlen]
  have hRfilter : R ∈ pA.2.1.ips.filter fun r =>
      match r.assignedTo with
      | some j => (pA.1.map fun i => i.id).contains j
      | none => false := by
    apply List.mem_filter.mpr
    refine ⟨hRA, ?_⟩
    show (match R.assignedTo with
      | some j => (pA.1.map fun i => i.id).contains j
      | none => false) = true
    rw [hass]
    show (pA.1.map fun i => i.id).contains I.id = true
    have : I.id ∈ pA.1.map fun i => i.id := List.mem_map_of_mem _ hImem
    simpa using this
  have hmemB : NetOp.saveIp { R with assignedTo := none } ∈
      ((pA.2.1.ips.filter fun r =>
        match r.assignedTo with
        | some j => (pA.1.map fun i => i.id).contains j
        | none => false).foldl (unassignStaleStep allLocal) (pA.2.1, [])).2 :=
    phaseB_emits allLocal _ (pA.2.1, []) R hRfilter hstale
  repeat' split
  all_goals exact List.mem_append_left _ (List.mem_append_right _ hmemB)


/-- C8 (amended): in a full network run over remote interfaces with
pairwise-distinct ids, every remote IP-address record assigned to a
surviving interface (one whose identity key is present locally) whose
address string is not among the locally observed addresses receives an
unassigning save call (the record written back with its interface
association removed), and no operation of the run is an IP-address delete
call. -/
theorem c8_surviving_stale_ips_unassigned (nics : List LocalNic) (st : NetState)
    (R : IpR) (I : NbInterface)
    (hnodup : (st.interfaces.map fun i => i.id).Nodup)
    (hR : R ∈ st.ips) (hass : R.assignedTo = some I.id)
    (hI : I ∈ st.interfaces)
    (hlocal : (nics.map nic_identifier_local).contains I.name = true)
    (hstale : ((nics.map fun n => n.ipAddrs).flatten).contains R.address = false) :
    NetOp.saveIp { R with assignedTo := none } ∈
      (create_or_update_netbox_network_cards nics st).trace ∧
    ∀ op ∈ (create_or_update_netbox_network_cards nics st).trace,
      ∀ i, op ≠ NetOp.deleteIp i :=
  ⟨network_run_unassigns nics st R I hnodup hR hass hI hlocal hstale,
   network_run_noIpDelete nics st⟩

/-- Witness for C8: on the concrete one-interface state the stale record is
written back unassigned and the run performs no IP delete. -/
theorem c8_surviving_stale_ips_witness :
    NetOp.saveIp { c8_surv_rec with assignedTo := none } ∈
      (create_or_update_netbox_network_cards [c8_surv_nic] c8_surv_state).trace ∧
    ∀ op ∈ (create_or_update_netbox_network_cards [c8_surv_nic] c8_surv_state).trace,
      ∀ i, op ≠ NetOp.deleteIp i :=
  c8_surviving_stale_ips_unassigned [c8_surv_nic] c8_surv_state c8_surv_rec
    c8_surv_iface (by decide) (by decide) (by decide) (by decide) (by decide)
    (by decide)

end NetboxAgent
